import Mathlib

/-!
Shallow embedding of the brick-tools calculators.

Gearbox propagation engine (gearbox module): tools (Source, Coupling,
Selector, Differential) connected through axles; per gear mode a
fixed-point sweep loop derives axle speed/torque values from the Source.
JS numbers are modelled as exact rationals.

Geometry kernel and enumerators (geometry/point.js, gearbox/editor.js):
the circle-intersection classification and the gear mounting-offset
classification compare the Euclidean distance d = √q (q the squared
distance, a rational) against rational bounds; those comparisons are
embedded as the equivalent decidable comparisons on q, with bridging
lemmas relating them to `Real.sqrt`.
-/

/-- Tool identifier: the source tool has the literal id "source", other
tools get ids "tool_n". -/
inductive TId where
  | source : TId
  | t : ℕ → TId
deriving DecidableEq, Repr

/-- Entry of the per-mode axle-value map: { speed, torque, outputBy }. -/
structure AxleVal where
  speed : ℚ
  torque : ℚ
  outputBy : TId
deriving DecidableEq, Repr

/-- Connection of a tool: role name plus an optional bound axle id
(null = disconnected). -/
structure Conn where
  name : String
  axleId : Option ℕ
deriving DecidableEq, Repr

/-- Tool type tag. -/
inductive ToolType where
  | source | coupling | selector | differential
deriving DecidableEq, Repr

/-- Per-gear-mode selection of a selector tool. -/
inductive SelMode where
  | A | B | Locked
deriving DecidableEq, Repr

/-- Tool parameters. Absent JS object fields are `none`. `mode` maps a
gear-mode number to the selector's per-mode selection parameter. -/
structure Params where
  teethA : Option ℚ := none
  teethB : Option ℚ := none
  invertDirection : Option Bool := none
  mode : ℕ → Option SelMode := fun _ => none

/-- A gearbox tool. -/
structure Tool where
  id : TId
  type : ToolType
  connections : List Conn
  params : Params

/-- JS `tool.params.teethA || 16`: undefined and 0 are falsy and default
to 16. -/
def teethOr (o : Option ℚ) : ℚ :=
  match o with
  | none => 16
  | some t => if t = 0 then 16 else t

/-- JS `tool.params.invertDirection !== undefined ? v : true`. -/
def invertOr (o : Option Bool) : Bool := o.getD true

/-- JS `tool.params[mode g] || 'Locked'`. -/
def selOr (o : Option SelMode) : SelMode := o.getD .Locked

/-- One produced output record { axleId, speed, torque }. -/
structure OutRec where
  axleId : ℕ
  speed : ℚ
  torque : ℚ
deriving DecidableEq, Repr

/-- Result of a tool evaluator: optional error message, flagged bit,
optional single output, list of outputs (Locked selector). -/
structure EvalResult where
  error : Option String := none
  flagged : Bool := false
  output : Option OutRec := none
  outputs : List OutRec := []
deriving DecidableEq, Repr

/-- The axle-value map (JS Map keyed by axle id). -/
def AxleMap : Type := ℕ → Option AxleVal

/-- JS `conn.axleId !== null && axleValues.has(conn.axleId) &&
axleValues.get(conn.axleId).outputBy !== tool.id`: the value on the
connection's axle when it was produced by a different tool, else none. -/
def extInput (m : AxleMap) (tid : TId) (ax : Option ℕ) : Option AxleVal :=
  match ax with
  | none => none
  | some a =>
    match m a with
    | none => none
    | some v => if v.outputBy = tid then none else some v

/-- Shared tail of `evaluateCoupling`: one side has the external input,
the other side is the output; flagged when the output connection is
disconnected. -/
def couplingOut (input : AxleVal) (outAxle : Option ℕ)
    (inTeeth outTeeth : ℚ) (invert : Bool) : EvalResult :=
  match outAxle with
  | none => { flagged := true }
  | some a =>
    let dir : ℚ := if invert then -1 else 1
    { output := some ⟨a, dir * input.speed * (inTeeth / outTeeth),
                      input.torque * (outTeeth / inTeeth)⟩ }

/-- Embedding of `evaluateCoupling` (gearbox module). -/
def evaluateCoupling (tool : Tool) (m : AxleMap) : EvalResult :=
  match tool.connections.find? (fun c => c.name = "Gear A"),
        tool.connections.find? (fun c => c.name = "Gear B") with
  | some connA, some connB =>
    let teethA := teethOr tool.params.teethA
    let teethB := teethOr tool.params.teethB
    let inv := invertOr tool.params.invertDirection
    match extInput m tool.id connA.axleId, extInput m tool.id connB.axleId with
    | some _, some _ => { error := some "Conflicting outputs" }
    | none, none => { flagged := true }
    | some input, none => couplingOut input connB.axleId teethA teethB inv
    | none, some input => couplingOut input connA.axleId teethB teethA inv
  | _, _ => { flagged := true }

/-- The Locked branch of `evaluateSelector`: every connection bound to
an axle without an existing output from another tool contributes a
speed=0, torque=0 output. -/
def lockedOutputs (tid : TId) (m : AxleMap) (conns : List Conn) : List OutRec :=
  conns.filterMap (fun c =>
    match c.axleId with
    | none => none
    | some a =>
      if (extInput m tid (some a)).isSome then none
      else some { axleId := a, speed := 0, torque := 0 })

/-- Result of the Locked branch: the collected outputs, or flagged when
there are none. -/
def selectorLocked (tid : TId) (m : AxleMap) (conns : List Conn) : EvalResult :=
  if lockedOutputs tid m conns ≠ [] then { outputs := lockedOutputs tid m conns }
  else { flagged := true }

/-- Embedding of `evaluateSelector` (gearbox module). -/
def evaluateSelector (tool : Tool) (gearModeNum : ℕ) (m : AxleMap) : EvalResult :=
  match tool.connections.find? (fun c => c.name = "Center"),
        tool.connections.find? (fun c => c.name = "A"),
        tool.connections.find? (fun c => c.name = "B") with
  | some connCenter, some connA, some connB =>
    match selOr (tool.params.mode gearModeNum) with
    | .Locked => selectorLocked tool.id m [connCenter, connA, connB]
    | sel =>
      let activeConn := if sel = .A then connA else connB
      match extInput m tool.id connCenter.axleId,
            extInput m tool.id activeConn.axleId with
      | some _, some _ => { error := some "Conflicting outputs" }
      | none, none => { flagged := true }
      | some input, none =>
        match activeConn.axleId with
        | none => { flagged := true }
        | some a => { output := some { axleId := a, speed := input.speed, torque := input.torque } }
      | none, some input =>
        match connCenter.axleId with
        | none => { flagged := true }
        | some a => { output := some { axleId := a, speed := input.speed, torque := input.torque } }
  | _, _, _ => { flagged := true }

/-- Shared tail of `evaluateDifferential`: flagged when the output
connection is disconnected. -/
def diffOut (outAxle : Option ℕ) (speed torque : ℚ) : EvalResult :=
  match outAxle with
  | none => { flagged := true }
  | some a => { output := some { axleId := a, speed := speed, torque := torque } }

/-- Embedding of `evaluateDifferential` (gearbox module). -/
def evaluateDifferential (tool : Tool) (m : AxleMap) : EvalResult :=
  match tool.connections.find? (fun c => c.name = "Body"),
        tool.connections.find? (fun c => c.name = "A"),
        tool.connections.find? (fun c => c.name = "B") with
  | some connBody, some connA, some connB =>
    match extInput m tool.id connBody.axleId,
          extInput m tool.id connA.axleId,
          extInput m tool.id connB.axleId with
    | some _, some _, some _ => { error := some "Conflicting outputs" }
    | none, some inA, some inB =>
      diffOut connBody.axleId ((inA.speed + inB.speed) / 2)
        (2 * (inA.torque + inB.torque))
    | some inBody, none, some inB =>
      diffOut connA.axleId (2 * inBody.speed - inB.speed)
        ((inBody.torque + inB.torque) / 2)
    | some inBody, some inA, none =>
      diffOut connB.axleId (2 * inBody.speed - inA.speed)
        ((inBody.torque + inA.torque) / 2)
    | _, _, _ => { flagged := true }
  | _, _, _ => { flagged := true }

/-- Embedding of `evaluateTool` (dispatch on the type tag). -/
def evaluateTool (tool : Tool) (gearModeNum : ℕ) (m : AxleMap) : EvalResult :=
  match tool.type with
  | .coupling => evaluateCoupling tool m
  | .selector => evaluateSelector tool gearModeNum m
  | .differential => evaluateDifferential tool m
  | .source => { flagged := true }

/-- Embedding of `getToolTypeName`. -/
def getToolTypeName (type : ToolType) : String :=
  match type with
  | .source => "Source Axle"
  | .coupling => "Coupling"
  | .selector => "Selector"
  | .differential => "Differential"

/-- Embedding of `getToolLabel`. -/
def getToolLabel (tools : List Tool) (toolId : TId) : String :=
  match toolId with
  | .source => "Source"
  | .t n =>
    match tools.find? (fun tl => tl.id = toolId) with
    | some tl => getToolTypeName tl.type
    | none => "tool_" ++ toString n

/-- Per-tool per-mode status record { error, flagged }. -/
structure GStatus where
  error : Option String := none
  flagged : Bool := false
deriving DecidableEq, Repr

/-- State threaded through one `computeGearMode` call: the axle-value
map, the per-tool status records for this gear mode, and the sweep's
`changed` flag. -/
structure ModeState where
  values : AxleMap
  statuses : TId → GStatus
  changed : Bool

/-- Functional update of the axle-value map. -/
def setAxle (m : AxleMap) (a : ℕ) (v : AxleVal) : AxleMap :=
  fun x => if x = a then some v else m x

/-- Functional update of the status table. -/
def setStatus (s : TId → GStatus) (tid : TId) (st : GStatus) : TId → GStatus :=
  fun x => if x = tid then st else s x

/-- The `result.output` branch of the loop body in `computeGearMode`:
write the output if its axle has no value yet; report a conflict error
when it is already produced by a different tool. -/
def applySingle (tools : List Tool) (tool : Tool) (o : OutRec) (st : ModeState) : ModeState :=
  match st.values o.axleId with
  | some existing =>
    if existing.outputBy ≠ tool.id then
      let msg := "Conflict with " ++ getToolLabel tools existing.outputBy
      { st with statuses := setStatus st.statuses tool.id ⟨some msg, false⟩ }
    else st
  | none =>
    { st with values := setAxle st.values o.axleId ⟨o.speed, o.torque, tool.id⟩,
              changed := true }

/-- The `result.outputs` loop of the loop body in `computeGearMode`:
write each output whose axle has no value yet; silently skip axles
already produced by another tool. -/
def applyMulti (tool : Tool) (outs : List OutRec) (st : ModeState) : ModeState :=
  match outs with
  | [] => st
  | o :: os =>
    applyMulti tool os
      (match st.values o.axleId with
       | some _ => st
       | none =>
         { st with values := setAxle st.values o.axleId ⟨o.speed, o.torque, tool.id⟩,
                   changed := true })

/-- The two output-application branches of the loop body in
`computeGearMode`: skipped entirely when the evaluator reported an
error. -/
def applyOutputs (tools : List Tool) (tool : Tool) (r : EvalResult) (st : ModeState) :
    ModeState :=
  if r.error = none then
    applyMulti tool r.outputs
      (match r.output with
       | some o => applySingle tools tool o st
       | none => st)
  else st

/-- One tool's step inside a sweep of `computeGearMode`: evaluate the
tool, record its status, then apply its output(s) to the map. -/
def applyTool (tools : List Tool) (gearModeNum : ℕ) (st : ModeState) (tool : Tool) : ModeState :=
  if tool.type = .source then st
  else
    let result := evaluateTool tool gearModeNum st.values
    applyOutputs tools tool result
      { st with statuses := setStatus st.statuses tool.id ⟨result.error, result.flagged⟩ }

/-- One full sweep over all tools (`for (const tool of tools)`), with
the `changed` flag reset first as at the top of the while loop. -/
def sweep (tools : List Tool) (gearModeNum : ℕ) (st : ModeState) : ModeState :=
  tools.foldl (applyTool tools gearModeNum) { st with changed := false }

/-- The while loop of `computeGearMode`, fuelled by the remaining
iteration budget; returns the final state and the number of sweeps
executed. -/
def runLoop (tools : List Tool) (gearModeNum : ℕ) : ℕ → ModeState → ModeState × ℕ
  | 0, st => (st, 0)
  | fuel + 1, st =>
    let st' := sweep tools gearModeNum st
    if st'.changed then
      let (r, n) := runLoop tools gearModeNum fuel st'
      (r, n + 1)
    else (st', 1)

/-- Initial state of `computeGearMode`: the source tool's output axle
(if connected) is seeded with speed 1, torque 1, produced by "source",
and the source tool's status is cleared. -/
def initState (sourceTool : Tool) : ModeState :=
  let values : AxleMap :=
    match sourceTool.connections.head? with
    | some c =>
      match c.axleId with
      | some a => fun x => if x = a then some ⟨1, 1, .source⟩ else none
      | none => fun _ => none
    | none => fun _ => none
  { values := values,
    statuses := setStatus (fun _ => {}) sourceTool.id { error := none, flagged := false },
    changed := true }

/-- Embedding of `computeGearMode`: run the propagation loop for one
gear mode with a budget of 100 sweeps; also returns the number of
sweeps executed. -/
def computeGearMode (sourceTool : Tool) (tools : List Tool) (gearModeNum : ℕ) :
    ModeState × ℕ :=
  runLoop tools gearModeNum 100 (initState sourceTool)

/-- The source tool as built by `resetData`: one connection "Output"
pre-bound to axle 1. -/
def mkSource : Tool :=
  { id := .source, type := .source,
    connections := [⟨"Output", some 1⟩], params := {} }

/-- A coupling tool as built by `addTool('coupling')`, with the two gear
connections bound as given. -/
def mkCoupling (n : ℕ) (teethA teethB : ℚ) (invert : Bool)
    (axA axB : Option ℕ) : Tool :=
  { id := .t n, type := .coupling,
    connections := [⟨"Gear A", axA⟩, ⟨"Gear B", axB⟩],
    params := { teethA := some teethA, teethB := some teethB,
                invertDirection := some invert } }

/-- A selector tool as built by `addTool('selector')`. -/
def mkSelector (n : ℕ) (axC axA axB : Option ℕ) (modes : ℕ → Option SelMode) : Tool :=
  { id := .t n, type := .selector,
    connections := [⟨"Center", axC⟩, ⟨"A", axA⟩, ⟨"B", axB⟩],
    params := { mode := modes } }

/-- A differential tool as built by `addTool('differential')`. -/
def mkDifferential (n : ℕ) (axBody axA axB : Option ℕ) : Tool :=
  { id := .t n, type := .differential,
    connections := [⟨"Body", axBody⟩, ⟨"A", axA⟩, ⟨"B", axB⟩],
    params := {} }

/-- Segment of a coupling chain: cnt couplings starting at axle i, each
joining axle j to axle j+1 with 16 teeth on both sides. -/
def chainFrom (i : ℕ) : ℕ → List Tool
  | 0 => []
  | cnt + 1 => mkCoupling i 16 16 true (some i) (some (i + 1)) :: chainFrom (i + 1) cnt

/-- Chain of couplings: coupling i (1 ≤ i ≤ n) joins axle i to axle
i+1, 16 teeth on both sides. -/
def chainTools (n : ℕ) : List Tool := chainFrom 1 n

/-- The producer of axle a in a converged coupling chain: axle 1 is
seeded by the source, axle a+1 is written by coupling a. -/
def chainProducer (a : ℕ) : TId := if a = 1 then .source else .t (a - 1)

/-- Invariant of the chain propagation: axles 1..i carry values with
the expected producers, axles above i have no value yet. -/
def ChainInv (i : ℕ) (m : AxleMap) : Prop :=
  (∀ a : ℕ, 1 ≤ a → a ≤ i → ∃ v, m a = some v ∧ v.outputBy = chainProducer a) ∧
  (∀ a : ℕ, i < a → m a = none)

/-- Iterated sweeps: the state after k full sweeps. -/
def sweepIter (tools : List Tool) (gearModeNum : ℕ) : ℕ → ModeState → ModeState
  | 0, st => st
  | k + 1, st => sweepIter tools gearModeNum k (sweep tools gearModeNum st)

/-- Example map for the coupling round-trip: axle 1 carries speed 2,
torque 3 produced by the source. -/
def exM1 : AxleMap := fun a => if a = 1 then some ⟨2, 3, .source⟩ else none

/-- The differential used in the concrete C2 scenarios: Body on axle 1,
A on axle 2, B on axle 3. -/
def diffTool : Tool := mkDifferential 1 (some 1) (some 2) (some 3)

/-- Map with Body (axle 1) and side A (axle 2) known. -/
def diffMapBA (bs bt sa ta : ℚ) : AxleMap :=
  fun a => if a = 1 then some ⟨bs, bt, .source⟩
           else if a = 2 then some ⟨sa, ta, .t 2⟩ else none

/-- Map with Body (axle 1) and side B (axle 3) known. -/
def diffMapBB (bs bt sb tb : ℚ) : AxleMap :=
  fun a => if a = 1 then some ⟨bs, bt, .source⟩
           else if a = 3 then some ⟨sb, tb, .t 2⟩ else none

/-- Map with side A (axle 2) and side B (axle 3) known. -/
def diffMapAB (sa ta sb tb : ℚ) : AxleMap :=
  fun a => if a = 2 then some ⟨sa, ta, .t 2⟩
           else if a = 3 then some ⟨sb, tb, .t 3⟩ else none

/-- Conflict scenario: two couplings both join axle 1 to axle 2; a third
coupling joins axle 2 to axle 3. -/
def conflictTools : List Tool :=
  [mkSource, mkCoupling 1 16 16 true (some 1) (some 2),
   mkCoupling 2 16 16 true (some 1) (some 2),
   mkCoupling 3 16 16 true (some 2) (some 3)]

/-- Locked-selector scenario: a selector with only Center connected, to
axle 2 (which has no other producer). -/
def lockedTools : List Tool :=
  [mkSource, mkSelector 1 (some 2) none none (fun _ => some .Locked)]

/-- Substring test on character lists: does `sub` occur contiguously in
`msg`? Used to state that an error message does (not) name a tool. -/
def startsWithL : List Char → List Char → Bool
  | [], _ => true
  | _ :: _, [] => false
  | a :: as, b :: bs => a = b && startsWithL as bs

/-- Substring occurrence test. -/
def occursIn (sub : List Char) : List Char → Bool
  | [] => startsWithL sub []
  | m :: ms => startsWithL sub (m :: ms) || occursIn sub ms

/-- Squared distance between two rational points. The source computes
d = Math.hypot(dx, dy) = √(dx² + dy²); all its comparisons on d are
embedded below as the equivalent decidable comparisons on this square. -/
def d2 (c0 c1 : ℚ × ℚ) : ℚ := (c1.1 - c0.1) ^ 2 + (c1.2 - c0.2) ^ 2

/-- Decidable form of `√q < c` for `0 ≤ q` (see `sqrtLtB_iff`). -/
def sqrtLtB (q c : ℚ) : Bool := if c ≤ 0 then false else q < c ^ 2

/-- Decidable form of `c < √q` for `0 ≤ q` (see `sqrtGtB_iff`). -/
def sqrtGtB (q c : ℚ) : Bool := if c < 0 then true else c ^ 2 < q

/-- Embedding of the free function `circleIntersections` (point.js):
the number of intersection points returned. The source returns [] in the
three epsilon-guarded degenerate cases, one point when the clamped
half-chord h is 0 (h² = r0² − a² ≤ 0 with a = (r0²−r1²+d²)/(2d)), and
two points otherwise. `4 q r0² ≤ (r0²−r1²+q)²` is `h² ≤ 0` multiplied
through by (2d)² = 4q > 0. -/
def circleIntersectionsCount (c0 : ℚ × ℚ) (r0 : ℚ) (c1 : ℚ × ℚ) (r1 : ℚ) : ℕ :=
  let q := d2 c0 c1
  if sqrtLtB q (1 / 10 ^ 12) then 0
  else if sqrtGtB q (r0 + r1 + 1 / 10 ^ 12) then 0
  else if sqrtLtB q (|r0 - r1| - 1 / 10 ^ 12) then 0
  else if 4 * q * r0 ^ 2 ≤ (r0 ^ 2 - r1 ^ 2 + q) ^ 2 then 1
  else 2

/-- Gear selection in the gear-coupling enumerator (editor.js): the two
worm identifiers "1(1L)" and "1(2L)", or a standard teeth count. -/
inductive GearTeeth where
  | worm1L | worm2L
  | std : ℚ → GearTeeth
deriving DecidableEq, Repr

/-- Embedding of `getGearRadius`. -/
def getGearRadius : GearTeeth → ℚ
  | .worm1L => 3 / 4
  | .worm2L => 1 / 2
  | .std n => n / 16

/-- Embedding of `calculateCenterDistance` (gearB is never a worm). -/
def calculateCenterDistance : GearTeeth → ℚ → ℚ
  | .worm1L, b => 3 / 4 + b / 16
  | .worm2L, b => 1 / 2 + b / 16
  | .std a, b => (a + b) / 16

/-- Embedding of `calculateGearRatio`. -/
def calculateGearRatio : GearTeeth → ℚ → ℚ
  | .worm1L, b => 1 / b
  | .worm2L, b => 1 / b
  | .std a, b => a / b

/-- Fit classification of one candidate mounting offset. -/
inductive FitClass where
  | skipped | exact | overfit | underfit
deriving DecidableEq, Repr

/-- Classification of a candidate offset (x, y) by the loop body of
`findMountingPositions`, with actualDist = √(x²+y²) compared through
squares: skipped when too far, too close, or (0,0); exact when
|actualDist − dist| < 1e-4; overfit when actualDist > dist; else
underfit. -/
def classifyOffset (dist maxOverfit maxUnderfit x y : ℚ) : FitClass :=
  if sqrtGtB (x ^ 2 + y ^ 2) (dist + maxOverfit) then .skipped
  else if sqrtLtB (x ^ 2 + y ^ 2) (dist - maxUnderfit) then .skipped
  else if x ^ 2 + y ^ 2 = 0 then .skipped
  else if sqrtLtB (x ^ 2 + y ^ 2) (dist + 1 / 10 ^ 4) &&
      sqrtGtB (x ^ 2 + y ^ 2) (dist - 1 / 10 ^ 4) then .exact
  else if sqrtGtB (x ^ 2 + y ^ 2) dist then .overfit
  else .underfit

/-- The half-stud candidate grid of `findMountingPositions`: x from 0 to
maxCoord in steps of 1/2, y from 0 to x in steps of 1/2. -/
def gridPoints (maxCoord : ℕ) : List (ℚ × ℚ) :=
  (List.range (2 * maxCoord + 1)).flatMap (fun i =>
    (List.range (i + 1)).map (fun j => ((i : ℚ) / 2, (j : ℚ) / 2)))

/-- The three result lists of `findMountingPositions` (each entry's
stored dist field √(x²+y²) is determined by x and y and is omitted). -/
structure MountingLists where
  exactL : List (ℚ × ℚ)
  overfitL : List (ℚ × ℚ)
  underfitL : List (ℚ × ℚ)
deriving DecidableEq, Repr

/-- Embedding of `findMountingPositions`. -/
def findMountingPositions (dist maxOverfit maxUnderfit : ℚ) : MountingLists :=
  let pts := gridPoints (Int.toNat ⌈dist + maxOverfit + 1⌉)
  { exactL := pts.filter (fun p => classifyOffset dist maxOverfit maxUnderfit p.1 p.2 = .exact),
    overfitL := pts.filter (fun p => classifyOffset dist maxOverfit maxUnderfit p.1 p.2 = .overfit),
    underfitL := pts.filter (fun p => classifyOffset dist maxOverfit maxUnderfit p.1 p.2 = .underfit) }

/-- Embedding of `getOverfitColorClass`. -/
def getOverfitColorClass (actualDist idealDist : ℚ) : String :=
  if actualDist - idealDist ≤ 1 / 20 then "text-green"
  else if actualDist - idealDist ≤ 1 / 10 then "text-orange"
  else "text-red"

/-- One candidate result row of `calculatePositions` (liftarms module),
restricted to the fields the remove-larger dedup reads: the unrounded S
coordinates and the two liftarm lengths. -/
structure LRow where
  sx : ℚ
  sy : ℚ
  aLen : ℚ
  bLen : ℚ
deriving DecidableEq, Repr

/-- Round half away from zero to an integer (the semantics of the
3-decimal toFixed formatting used for the dedup key). -/
def roundAway (x : ℚ) : ℤ := if 0 ≤ x then ⌊x + 1 / 2⌋ else -⌊-x + 1 / 2⌋

/-- Round to 3 decimals, half away from zero. -/
def round3 (x : ℚ) : ℚ := (roundAway (x * 1000) : ℚ) / 1000

/-- The `keyRemoveLarger` dedup key of a row: its 3-decimal-rounded S
coordinates. -/
def rowKey (r : LRow) : ℚ × ℚ := (round3 r.sx, round3 r.sy)

/-- The sum aLen + bLen the dedup minimises. -/
def rowSum (r : LRow) : ℚ := r.aLen + r.bLen

/-- Accumulator of the in-loop remove-larger bookkeeping: the rows kept
so far and the `minLenSum` map. -/
structure DedupAcc where
  kept : List LRow
  minLenSum : ℚ × ℚ → Option ℚ

/-- One step of the in-loop remove-larger bookkeeping: skip the row when
its length sum is ≥ the recorded minimum + 0.001, else record it and
push the row. -/
def dedupStep (acc : DedupAcc) (r : LRow) : DedupAcc :=
  match acc.minLenSum (rowKey r) with
  | some mn =>
    if mn + 1 / 1000 ≤ rowSum r then acc
    else ⟨acc.kept ++ [r],
          fun x => if x = rowKey r then some (rowSum r) else acc.minLenSum x⟩
  | none => ⟨acc.kept ++ [r],
             fun x => if x = rowKey r then some (rowSum r) else acc.minLenSum x⟩

/-- The in-loop pass over all candidate rows. -/
def dedupPass (rows : List LRow) : DedupAcc :=
  rows.foldl dedupStep ⟨[], fun _ => none⟩

/-- Embedding of the remove-larger dedup of `calculatePositions`: the
in-loop pass followed by the post-loop filter that removes rows whose
length sum is ≥ the final recorded minimum + 0.001 for their key. -/
def removeLargerFilter (rows : List LRow) : List LRow :=
  (dedupPass rows).kept.filter (fun r =>
    match (dedupPass rows).minLenSum (rowKey r) with
    | some mn => decide (rowSum r < mn + 1 / 1000)
    | none => true)

theorem sqrtLtB_iff (q c : ℚ) : sqrtLtB q c = true ↔ Real.sqrt (q : ℝ) < (c : ℝ) := by
  unfold sqrtLtB
  split
  · rename_i hc
    simp only [Bool.false_eq_true, false_iff, not_lt]
    exact le_trans (by exact_mod_cast hc) (Real.sqrt_nonneg _)
  · rename_i hc
    rw [decide_eq_true_eq, Real.sqrt_lt' (by exact_mod_cast lt_of_not_le hc)]
    exact_mod_cast Iff.rfl

theorem sqrtGtB_iff (q c : ℚ) : sqrtGtB q c = true ↔ (c : ℝ) < Real.sqrt (q : ℝ) := by
  unfold sqrtGtB
  split
  · rename_i hc
    simp only [true_iff]
    exact lt_of_lt_of_le (by exact_mod_cast hc) (Real.sqrt_nonneg _)
  · rename_i hc
    rw [decide_eq_true_eq, Real.lt_sqrt (by exact_mod_cast le_of_not_lt hc)]
    exact_mod_cast Iff.rfl

theorem evaluateCoupling_inA (n : ℕ) (tA tB : ℚ) (inv : Bool) (axA axB : ℕ)
    (m : AxleMap) (input : AxleVal) (h1 : tA ≠ 0) (h2 : tB ≠ 0)
    (h3 : extInput m (.t n) (some axA) = some input)
    (h4 : extInput m (.t n) (some axB) = none) :
    evaluateCoupling (mkCoupling n tA tB inv (some axA) (some axB)) m =
      { output := some ⟨axB, (if inv then -1 else 1) * input.speed * (tA / tB),
                        input.torque * (tB / tA)⟩ } := by
  simp [evaluateCoupling, mkCoupling, h3, h4, couplingOut, teethOr, invertOr, h1, h2]

theorem evaluateCoupling_inB (n : ℕ) (tA tB : ℚ) (inv : Bool) (axA axB : ℕ)
    (m : AxleMap) (input : AxleVal) (h1 : tA ≠ 0) (h2 : tB ≠ 0)
    (h3 : extInput m (.t n) (some axA) = none)
    (h4 : extInput m (.t n) (some axB) = some input) :
    evaluateCoupling (mkCoupling n tA tB inv (some axA) (some axB)) m =
      { output := some ⟨axA, (if inv then -1 else 1) * input.speed * (tB / tA),
                        input.torque * (tA / tB)⟩ } := by
  simp [evaluateCoupling, mkCoupling, h3, h4, couplingOut, teethOr, invertOr, h1, h2]

/-- C1: a Coupling with exactly one gear connection carrying an
externally-produced value and the other connection bound outputs on the
other axle speed = (invertDirection ? −1 : 1) · input.speed ·
(inputTeeth/outputTeeth) and torque = input.torque ·
(outputTeeth/inputTeeth); for teethA=16, teethB=20, invertDirection
true and input speed 2, torque 3 on side A, the output on B is
speed −1.6, torque 3.75. -/
theorem evaluateCoupling_spec_C1 :
    (∀ (n : ℕ) (tA tB : ℚ) (inv : Bool) (axA axB : ℕ) (m : AxleMap) (input : AxleVal),
      tA ≠ 0 → tB ≠ 0 →
      extInput m (.t n) (some axA) = some input →
      extInput m (.t n) (some axB) = none →
      evaluateCoupling (mkCoupling n tA tB inv (some axA) (some axB)) m =
        { output := some ⟨axB, (if inv then -1 else 1) * input.speed * (tA / tB),
                          input.torque * (tB / tA)⟩ })
    ∧ (∀ (n : ℕ) (tA tB : ℚ) (inv : Bool) (axA axB : ℕ) (m : AxleMap) (input : AxleVal),
      tA ≠ 0 → tB ≠ 0 →
      extInput m (.t n) (some axA) = none →
      extInput m (.t n) (some axB) = some input →
      evaluateCoupling (mkCoupling n tA tB inv (some axA) (some axB)) m =
        { output := some ⟨axA, (if inv then -1 else 1) * input.speed * (tB / tA),
                          input.torque * (tA / tB)⟩ })
    ∧ evaluateCoupling (mkCoupling 1 16 20 true (some 1) (some 2)) exM1 =
        { output := some ⟨2, -(8 / 5), 15 / 4⟩ } := by
  refine ⟨fun n tA tB inv axA axB m input h1 h2 h3 h4 =>
      evaluateCoupling_inA n tA tB inv axA axB m input h1 h2 h3 h4,
    fun n tA tB inv axA axB m input h1 h2 h3 h4 =>
      evaluateCoupling_inB n tA tB inv axA axB m input h1 h2 h3 h4, ?_⟩
  have h : evaluateCoupling (mkCoupling 1 16 20 true (some 1) (some 2)) exM1 =
      couplingOut ⟨2, 3, .source⟩ (some 2) 16 20 true := rfl
  rw [h]
  simp only [couplingOut]
  norm_num

/-- Witness for C1 at the concrete round-trip instance. -/
theorem evaluateCoupling_spec_C1_witness :
    evaluateCoupling (mkCoupling 1 16 20 true (some 1) (some 2)) exM1 =
      { output := some ⟨2, (if true then -1 else 1) * 2 * (16 / 20), 3 * (20 / 16)⟩ } :=
  evaluateCoupling_spec_C1.1 1 16 20 true 1 2 exM1 ⟨2, 3, .source⟩
    (by norm_num) (by norm_num) (by decide) (by decide)

/-- C2 counterexample: feeding Body=(2,1) and B=(1,3/2) back to the
differential evaluator yields A = (3, 5/4), not the original A=(3,2)
claimed: the torque formulas are not invertible. -/
theorem differential_invert_C2_counterexample :
    evaluateDifferential diffTool (diffMapBB 2 1 1 (3 / 2)) =
      { output := some ⟨2, 3, 5 / 4⟩ } ∧ (5 / 4 : ℚ) ≠ 2 := by
  constructor
  · have h : evaluateDifferential diffTool (diffMapBB 2 1 1 (3 / 2)) =
        diffOut (some 2) (2 * 2 - 1) ((1 + 3 / 2) / 2) := rfl
    rw [h]
    simp only [diffOut]
    norm_num
  · norm_num

/-- C2 (amended): the three differential formulas are invertible in
their speed components — computing the third member from two knowns and
feeding it back reproduces the other original speed — but the torque is
not reproduced in general: Body=(2,1), A=(3,2) yields B=(1, 3/2), and
Body=(2,1), B=(1, 3/2) yields A=(3, 5/4), whose torque differs from the
original 2. -/
theorem differential_invert_C2_amended :
    (∀ bs bt sa ta : ℚ, evaluateDifferential diffTool (diffMapBA bs bt sa ta) =
        { output := some ⟨3, 2 * bs - sa, (bt + ta) / 2⟩ })
    ∧ (∀ bs bt sb tb : ℚ, evaluateDifferential diffTool (diffMapBB bs bt sb tb) =
        { output := some ⟨2, 2 * bs - sb, (bt + tb) / 2⟩ })
    ∧ (∀ sa ta sb tb : ℚ, evaluateDifferential diffTool (diffMapAB sa ta sb tb) =
        { output := some ⟨1, (sa + sb) / 2, 2 * (ta + tb)⟩ })
    ∧ (∀ bs bt sa ta : ℚ, evaluateDifferential diffTool
        (diffMapBB bs bt (2 * bs - sa) ((bt + ta) / 2)) =
        { output := some ⟨2, sa, (bt + (bt + ta) / 2) / 2⟩ })
    ∧ (∀ bs bt sb tb : ℚ, evaluateDifferential diffTool
        (diffMapBA bs bt (2 * bs - sb) ((bt + tb) / 2)) =
        { output := some ⟨3, sb, (bt + (bt + tb) / 2) / 2⟩ })
    ∧ evaluateDifferential diffTool (diffMapBA 2 1 3 2) =
        { output := some ⟨3, 1, 3 / 2⟩ }
    ∧ evaluateDifferential diffTool (diffMapBB 2 1 1 (3 / 2)) =
        { output := some ⟨2, 3, 5 / 4⟩ } := by
  refine ⟨fun bs bt sa ta => rfl, fun bs bt sb tb => rfl, fun sa ta sb tb => rfl,
    ?_, ?_, ?_, ?_⟩
  · intro bs bt sa ta
    have h : evaluateDifferential diffTool (diffMapBB bs bt (2 * bs - sa) ((bt + ta) / 2)) =
        { output := some ⟨2, 2 * bs - (2 * bs - sa), (bt + (bt + ta) / 2) / 2⟩ } := rfl
    rw [h]
    simp
  · intro bs bt sb tb
    have h : evaluateDifferential diffTool (diffMapBA bs bt (2 * bs - sb) ((bt + tb) / 2)) =
        { output := some ⟨3, 2 * bs - (2 * bs - sb), (bt + (bt + tb) / 2) / 2⟩ } := rfl
    rw [h]
    simp
  · have h : evaluateDifferential diffTool (diffMapBA 2 1 3 2) =
        diffOut (some 3) (2 * 2 - 3) ((1 + 2) / 2) := rfl
    rw [h]
    simp only [diffOut]
    norm_num
  · have h : evaluateDifferential diffTool (diffMapBB 2 1 1 (3 / 2)) =
        diffOut (some 2) (2 * 2 - 1) ((1 + 3 / 2) / 2) := rfl
    rw [h]
    simp only [diffOut]
    norm_num

/-- C3 counterexample: in the two-producer conflict scenario the losing
coupling's error message is the constant "Conflicting outputs"; it does
not name the other producing tool (whose label is "Coupling") nor
"Source". -/
theorem conflict_message_C3_counterexample :
    ((computeGearMode mkSource conflictTools 1).1.statuses (.t 2)).error =
      some "Conflicting outputs"
    ∧ getToolLabel conflictTools (.t 1) = "Coupling"
    ∧ occursIn "Coupling".toList "Conflicting outputs".toList = false
    ∧ occursIn "Source".toList "Conflicting outputs".toList = false := by
  refine ⟨by decide, by decide, by decide, by decide⟩

/-- C3 (amended): when two couplings both write the same axle in the
same gear mode, exactly one of them ends the mode with the constant
error message "Conflicting outputs" (which does not name the other
producer), the other keeps its normal status, and the computation of
the remaining tools and of other modes is not aborted (the downstream
coupling still produces its axle and stays OK, in both modes). -/
theorem conflict_local_C3_amended :
    (computeGearMode mkSource conflictTools 1).1.statuses (.t 2) =
      ⟨some "Conflicting outputs", false⟩
    ∧ (computeGearMode mkSource conflictTools 1).1.statuses (.t 1) = ⟨none, false⟩
    ∧ (computeGearMode mkSource conflictTools 1).1.statuses (.t 3) = ⟨none, false⟩
    ∧ ((computeGearMode mkSource conflictTools 1).1.values 3).isSome = true
    ∧ (computeGearMode mkSource conflictTools 2).1.statuses (.t 2) =
      ⟨some "Conflicting outputs", false⟩
    ∧ (computeGearMode mkSource conflictTools 2).1.statuses (.t 1) = ⟨none, false⟩
    ∧ (computeGearMode mkSource conflictTools 2).1.statuses (.t 3) = ⟨none, false⟩
    ∧ ((computeGearMode mkSource conflictTools 2).1.values 3).isSome = true := by
  refine ⟨by decide, by decide, by decide, by decide, by decide, by decide, by decide, by decide⟩

theorem applySingle_values (tools : List Tool) (tool : Tool) (o : OutRec) (st : ModeState)
    (a : ℕ) (v : AxleVal) (h : st.values a = some v) :
    (applySingle tools tool o st).values a = some v := by
  unfold applySingle
  split
  · split
    · exact h
    · exact h
  · rename_i hnone
    show setAxle st.values o.axleId _ a = some v
    unfold setAxle
    by_cases hax : a = o.axleId
    · rw [hax] at h
      rw [h] at hnone
      cases hnone
    · rw [if_neg hax]
      exact h

theorem applyMulti_values (tool : Tool) (outs : List OutRec) (st : ModeState)
    (a : ℕ) (v : AxleVal) (h : st.values a = some v) :
    (applyMulti tool outs st).values a = some v := by
  induction outs generalizing st with
  | nil => exact h
  | cons o os ih =>
    rw [applyMulti]
    apply ih
    split
    · exact h
    · rename_i hnone
      show setAxle st.values o.axleId _ a = some v
      unfold setAxle
      by_cases hax : a = o.axleId
      · rw [hax] at h
        rw [h] at hnone
        cases hnone
      · rw [if_neg hax]
        exact h

theorem applyOutputs_values (tools : List Tool) (tool : Tool) (r : EvalResult)
    (st : ModeState) (a : ℕ) (v : AxleVal) (h : st.values a = some v) :
    (applyOutputs tools tool r st).values a = some v := by
  unfold applyOutputs
  split
  · apply applyMulti_values
    split
    · exact applySingle_values _ _ _ _ _ _ h
    · exact h
  · exact h

theorem applyTool_values (tools : List Tool) (gearModeNum : ℕ) (st : ModeState)
    (tool : Tool) (a : ℕ) (v : AxleVal) (h : st.values a = some v) :
    (applyTool tools gearModeNum st tool).values a = some v := by
  unfold applyTool
  split
  · exact h
  · exact applyOutputs_values _ _ _ _ _ _ h

theorem foldl_applyTool_values (tools : List Tool) (gearModeNum : ℕ) (l : List Tool)
    (st : ModeState) (a : ℕ) (v : AxleVal) (h : st.values a = some v) :
    (l.foldl (applyTool tools gearModeNum) st).values a = some v := by
  induction l generalizing st with
  | nil => exact h
  | cons t ts ih =>
    rw [List.foldl_cons]
    exact ih _ (applyTool_values _ _ _ _ _ _ h)

theorem sweep_values (tools : List Tool) (gearModeNum : ℕ) (st : ModeState)
    (a : ℕ) (v : AxleVal) (h : st.values a = some v) :
    (sweep tools gearModeNum st).values a = some v :=
  foldl_applyTool_values tools gearModeNum tools _ a v h

theorem runLoop_values (tools : List Tool) (gearModeNum : ℕ) (fuel : ℕ) (st : ModeState)
    (a : ℕ) (v : AxleVal) (h : st.values a = some v) :
    ((runLoop tools gearModeNum fuel st).1).values a = some v := by
  induction fuel generalizing st with
  | zero => exact h
  | succ f ih =>
    rw [runLoop]
    split
    · exact ih _ (sweep_values _ _ _ _ _ h)
    · exact sweep_values _ _ _ _ _ h

/-- C7: within one `computeGearMode` call the axle-value map is
write-once: an entry, once present, is preserved unchanged by every
further tool application, by every further full sweep, and by the rest
of the propagation loop. -/
theorem axle_write_once_C7 :
    (∀ (tools : List Tool) (gearModeNum : ℕ) (st : ModeState) (tool : Tool) (a : ℕ)
      (v : AxleVal), st.values a = some v →
      (applyTool tools gearModeNum st tool).values a = some v)
    ∧ (∀ (tools : List Tool) (gearModeNum : ℕ) (st : ModeState) (a : ℕ) (v : AxleVal),
      st.values a = some v → (sweep tools gearModeNum st).values a = some v)
    ∧ (∀ (tools : List Tool) (gearModeNum : ℕ) (fuel : ℕ) (st : ModeState) (a : ℕ)
      (v : AxleVal), st.values a = some v →
      ((runLoop tools gearModeNum fuel st).1).values a = some v) :=
  ⟨fun tools g st tool a v h => applyTool_values tools g st tool a v h,
   fun tools g st a v h => sweep_values tools g st a v h,
   fun tools g fuel st a v h => runLoop_values tools g fuel st a v h⟩

/-- Witness for C7: the seeded source value on axle 1 survives the
whole propagation of the conflict scenario. -/
theorem axle_write_once_C7_witness :
    ((runLoop conflictTools 1 100 (initState mkSource)).1).values 1 =
      some ⟨1, 1, .source⟩ :=
  axle_write_once_C7.2.2 conflictTools 1 100 (initState mkSource) 1 ⟨1, 1, .source⟩
    (by decide)

theorem applyMulti_writes (tool : Tool) (outs : List OutRec) (st : ModeState) (a : ℕ)
    (hmem : (⟨a, 0, 0⟩ : OutRec) ∈ outs)
    (hall : ∀ o ∈ outs, o.axleId = a → o = ⟨a, 0, 0⟩)
    (hnone : st.values a = none) :
    (applyMulti tool outs st).values a = some ⟨0, 0, tool.id⟩ := by
  induction outs generalizing st with
  | nil => cases hmem
  | cons o os ih =>
    rw [applyMulti]
    by_cases hax : o.axleId = a
    · have ho : o = ⟨a, 0, 0⟩ := hall o (List.mem_cons_self _ _) hax
      subst ho
      split
      · rename_i w hw
        simp [hnone] at hw
      · apply applyMulti_values
        simp [setAxle]
    · have hmem2 : (⟨a, 0, 0⟩ : OutRec) ∈ os := by
        rcases List.mem_cons.1 hmem with h | h
        · exact absurd (by rw [← h]) hax
        · exact h
      have hall2 : ∀ o2 ∈ os, o2.axleId = a → o2 = ⟨a, 0, 0⟩ :=
        fun o2 ho2 => hall o2 (List.mem_cons_of_mem _ ho2)
      split
      · exact ih _ hmem2 hall2 hnone
      · refine ih _ hmem2 hall2 ?_
        show setAxle st.values o.axleId _ a = none
        unfold setAxle
        rw [if_neg (fun h => hax h.symm)]
        exact hnone

theorem selectorLocked_error (tid : TId) (m : AxleMap) (conns : List Conn) :
    (selectorLocked tid m conns).error = none := by
  unfold selectorLocked
  split <;> rfl

theorem selectorLocked_output (tid : TId) (m : AxleMap) (conns : List Conn) :
    (selectorLocked tid m conns).output = none := by
  unfold selectorLocked
  split <;> rfl

theorem lockedOutputs_payload (tid : TId) (m : AxleMap) (conns : List Conn) :
    ∀ o ∈ lockedOutputs tid m conns, o.speed = 0 ∧ o.torque = 0 := by
  intro o ho
  rcases List.mem_filterMap.1 ho with ⟨c, _, hc⟩
  rcases hax : c.axleId with _ | a'
  · rw [hax] at hc
    cases hc
  · rw [hax] at hc
    by_cases hs : (extInput m tid (some a')).isSome
    · simp [hs] at hc
    · simp only [hs, Bool.false_eq_true, if_false, Option.some.injEq] at hc
      rw [← hc]
      exact ⟨rfl, rfl⟩

theorem lockedOutputs_mem (tid : TId) (m : AxleMap) (conns : List Conn) (a : ℕ)
    (hconn : ∃ c ∈ conns, c.axleId = some a)
    (hext : extInput m tid (some a) = none) :
    (⟨a, 0, 0⟩ : OutRec) ∈ lockedOutputs tid m conns := by
  rcases hconn with ⟨c, hcmem, hca⟩
  refine List.mem_filterMap.2 ⟨c, hcmem, ?_⟩
  rw [hca]
  simp [hext]

theorem selectorLocked_outputs (tid : TId) (m : AxleMap) (conns : List Conn)
    (h : lockedOutputs tid m conns ≠ []) :
    (selectorLocked tid m conns).outputs = lockedOutputs tid m conns := by
  unfold selectorLocked
  rw [if_pos h]
theorem evaluateSelector_locked (n : ℕ) (axC axA axB : Option ℕ)
    (modes : ℕ → Option SelMode) (g : ℕ) (m : AxleMap)
    (hsel : selOr (modes g) = .Locked) :
    evaluateSelector (mkSelector n axC axA axB modes) g m =
      selectorLocked (.t n) m [⟨"Center", axC⟩, ⟨"A", axA⟩, ⟨"B", axB⟩] := by
  simp [evaluateSelector, mkSelector, hsel]

theorem applyTool_locked_writes (tools : List Tool) (n : ℕ) (axC axA axB : Option ℕ)
    (modes : ℕ → Option SelMode) (g : ℕ) (st : ModeState) (a : ℕ)
    (hsel : selOr (modes g) = .Locked)
    (hconn : some a = axC ∨ some a = axA ∨ some a = axB)
    (hext : extInput st.values (.t n) (some a) = none)
    (hnone : st.values a = none) :
    (applyTool tools g st (mkSelector n axC axA axB modes)).values a = some ⟨0, 0, .t n⟩ := by
  have hc : ∃ c ∈ [(⟨"Center", axC⟩ : Conn), ⟨"A", axA⟩, ⟨"B", axB⟩], c.axleId = some a := by
    rcases hconn with h | h | h
    · exact ⟨⟨"Center", axC⟩, by simp, h.symm⟩
    · exact ⟨⟨"A", axA⟩, by simp, h.symm⟩
    · exact ⟨⟨"B", axB⟩, by simp, h.symm⟩
  have hmem := lockedOutputs_mem (.t n) st.values _ a hc hext
  have hres : evaluateTool (mkSelector n axC axA axB modes) g st.values =
      selectorLocked (.t n) st.values [⟨"Center", axC⟩, ⟨"A", axA⟩, ⟨"B", axB⟩] :=
    evaluateSelector_locked n axC axA axB modes g st.values hsel
  rw [applyTool]
  rw [if_neg (by simp [mkSelector])]
  rw [hres]
  rw [applyOutputs]
  rw [if_pos (selectorLocked_error _ _ _)]
  rw [selectorLocked_output]
  rw [selectorLocked_outputs _ _ _ (List.ne_nil_of_mem hmem)]
  exact applyMulti_writes _ _ _ a hmem
    (fun o ho hoa => by
      rcases lockedOutputs_payload (.t n) st.values _ o ho with ⟨h1, h2⟩
      cases o
      simp_all)
    hnone
theorem evaluateSelector_locked_flagged (n : ℕ) (axC axA axB : Option ℕ)
    (modes : ℕ → Option SelMode) (g : ℕ) (m : AxleMap)
    (hsel : selOr (modes g) = .Locked)
    (hall : ∀ a : ℕ, (some a = axC ∨ some a = axA ∨ some a = axB) →
      (extInput m (.t n) (some a)).isSome = true) :
    evaluateSelector (mkSelector n axC axA axB modes) g m = { flagged := true } := by
  rw [evaluateSelector_locked n axC axA axB modes g m hsel]
  have hempty : lockedOutputs (.t n) m [⟨"Center", axC⟩, ⟨"A", axA⟩, ⟨"B", axB⟩] = [] := by
    unfold lockedOutputs
    rcases axC with _ | ac <;> rcases axA with _ | aa <;> rcases axB with _ | ab <;>
      simp [hall]
  unfold selectorLocked
  rw [hempty]
  simp

/-- C5: a Selector whose per-mode parameter is "Locked" writes speed=0,
torque=0 to every connected side whose axle lacks a value produced by a
different tool; in the concrete scenario (only Center connected, no
other producer) the axle ends with speed=0, torque=0 and the tool's
status for the mode is OK; when all connected sides already carry
values from other tools the Selector is flagged. -/
theorem selector_locked_C5 :
    (∀ (tools : List Tool) (n : ℕ) (axC axA axB : Option ℕ) (modes : ℕ → Option SelMode)
      (g : ℕ) (st : ModeState) (a : ℕ),
      selOr (modes g) = .Locked →
      (some a = axC ∨ some a = axA ∨ some a = axB) →
      extInput st.values (.t n) (some a) = none →
      st.values a = none →
      (applyTool tools g st (mkSelector n axC axA axB modes)).values a = some ⟨0, 0, .t n⟩)
    ∧ ((computeGearMode mkSource lockedTools 1).1.values 2 = some ⟨0, 0, .t 1⟩
       ∧ (computeGearMode mkSource lockedTools 1).1.statuses (.t 1) = ⟨none, false⟩)
    ∧ (∀ (n : ℕ) (axC axA axB : Option ℕ) (modes : ℕ → Option SelMode) (g : ℕ) (m : AxleMap),
      selOr (modes g) = .Locked →
      (∀ a : ℕ, (some a = axC ∨ some a = axA ∨ some a = axB) →
        (extInput m (.t n) (some a)).isSome = true) →
      evaluateSelector (mkSelector n axC axA axB modes) g m = { flagged := true }) :=
  ⟨fun tools n axC axA axB modes g st a hsel hconn hext hnone =>
      applyTool_locked_writes tools n axC axA axB modes g st a hsel hconn hext hnone,
   ⟨by decide, by decide⟩,
   fun n axC axA axB modes g m hsel hall =>
      evaluateSelector_locked_flagged n axC axA axB modes g m hsel hall⟩

theorem selector_locked_C5_witness :
    (applyTool [] 1 (initState mkSource)
        (mkSelector 1 (some 2) none none (fun _ => some .Locked))).values 2 =
      some ⟨0, 0, .t 1⟩
    ∧ evaluateSelector (mkSelector 1 (some 1) none none (fun _ => some .Locked)) 1
        (initState mkSource).values = { flagged := true } :=
  ⟨selector_locked_C5.1 [] 1 (some 2) none none _ 1 (initState mkSource) 2
      (by decide) (Or.inl rfl) (by decide) (by decide),
   selector_locked_C5.2.2 1 (some 1) none none _ 1 (initState mkSource).values
      (by decide)
      (by
        intro a h
        rcases h with h | h | h
        · injection h with h
          subst h
          decide
        · cases h
        · cases h)⟩
theorem evaluateCoupling_outputs_nil (tool : Tool) (m : AxleMap) :
    (evaluateCoupling tool m).outputs = [] := by
  unfold evaluateCoupling
  split
  · split
    · rfl
    · rfl
    · unfold couplingOut
      split <;> rfl
    · unfold couplingOut
      split <;> rfl
  · rfl

theorem evaluateCoupling_output_axle (n : ℕ) (tA tB : ℚ) (inv : Bool) (axA axB : Option ℕ)
    (m : AxleMap) (o : OutRec)
    (h : (evaluateCoupling (mkCoupling n tA tB inv axA axB) m).output = some o) :
    some o.axleId = axA ∨ some o.axleId = axB := by
  revert h
  rcases hA : extInput m (.t n) axA with _ | va <;>
    rcases hB : extInput m (.t n) axB with _ | vb <;>
      rcases axA with _ | a <;> rcases axB with _ | b <;>
        simp [evaluateCoupling, mkCoupling, couplingOut, hA, hB] <;>
        (intro h; simp [← h])
/-- C6: a Selector whose per-mode parameter is "A" or "B" evaluates
exactly like a Coupling with equal teeth (ratio 1:1) and no direction
inversion joining Center and the selected side; it produces no
multi-output list and any single output lands on Center's or the
selected side's axle, never on the unselected side. -/
theorem selector_passthrough_C6 :
    ∀ (n : ℕ) (axC axA axB : Option ℕ) (modes : ℕ → Option SelMode) (g : ℕ) (m : AxleMap),
      (selOr (modes g) = .A ∨ selOr (modes g) = .B) →
      evaluateSelector (mkSelector n axC axA axB modes) g m =
        evaluateCoupling (mkCoupling n 16 16 false axC
          (if selOr (modes g) = .A then axA else axB)) m
      ∧ (evaluateSelector (mkSelector n axC axA axB modes) g m).outputs = []
      ∧ (∀ o, (evaluateSelector (mkSelector n axC axA axB modes) g m).output = some o →
          some o.axleId = axC ∨
            some o.axleId = (if selOr (modes g) = .A then axA else axB)) := by
  intro n axC axA axB modes g m hsel
  have h16 : (16 : ℚ) / 16 = 1 := by norm_num
  have heq : evaluateSelector (mkSelector n axC axA axB modes) g m =
      evaluateCoupling (mkCoupling n 16 16 false axC
        (if selOr (modes g) = .A then axA else axB)) m := by
    rcases hsel with h | h
    · rw [if_pos h]
      rcases hC : extInput m (.t n) axC with _ | vc <;>
        rcases hA : extInput m (.t n) axA with _ | va <;>
          simp [evaluateSelector, mkSelector, h, evaluateCoupling, mkCoupling, couplingOut,
            teethOr, invertOr, hC, hA, h16]
    · rw [if_neg (by rw [h]; intro hc; cases hc)]
      rcases hC : extInput m (.t n) axC with _ | vc <;>
        rcases hB : extInput m (.t n) axB with _ | vb <;>
          simp [evaluateSelector, mkSelector, h, evaluateCoupling, mkCoupling, couplingOut,
            teethOr, invertOr, hC, hB, h16]
  refine ⟨heq, ?_, ?_⟩
  · rw [heq]
    exact evaluateCoupling_outputs_nil _ _
  · intro o ho
    rw [heq] at ho
    exact evaluateCoupling_output_axle n 16 16 false axC _ m o ho

/-- Witness for C6 at a concrete selector in mode "A" passing the
source value from Center (axle 1) to side A (axle 2). -/
theorem selector_passthrough_C6_witness :
    evaluateSelector (mkSelector 1 (some 1) (some 2) (some 3) (fun _ => some .A)) 1
        (initState mkSource).values =
      evaluateCoupling (mkCoupling 1 16 16 false (some 1)
        (if selOr ((fun _ => some SelMode.A) 1) = .A then some 2 else some 3))
        (initState mkSource).values :=
  (selector_passthrough_C6 1 (some 1) (some 2) (some 3) (fun _ => some .A) 1
    (initState mkSource).values (Or.inl rfl)).1
theorem extInput_eq_some (m : AxleMap) (tid : TId) (a : ℕ) (v : AxleVal)
    (h : m a = some v) (hne : ¬v.outputBy = tid) : extInput m tid (some a) = some v := by
  simp only [extInput]
  rw [h]
  simp [hne]

theorem extInput_eq_none (m : AxleMap) (tid : TId) (a : ℕ)
    (h : m a = none) : extInput m tid (some a) = none := by
  simp only [extInput]
  rw [h]

theorem applyTool_source (tools : List Tool) (g : ℕ) (st : ModeState) (tool : Tool)
    (h : tool.type = .source) : applyTool tools g st tool = st := by
  rw [applyTool, if_pos h]

theorem applyTool_eval (tools : List Tool) (g : ℕ) (st : ModeState) (tool : Tool)
    (hns : ¬tool.type = .source) (r : EvalResult)
    (hr : evaluateTool tool g st.values = r) :
    applyTool tools g st tool =
      applyOutputs tools tool r
        { st with statuses := setStatus st.statuses tool.id ⟨r.error, r.flagged⟩ } := by
  subst hr
  rw [applyTool, if_neg hns]

theorem chain_step (tools : List Tool) (g : ℕ) (i : ℕ) (st : ModeState)
    (hi : 1 ≤ i) (hinv : ChainInv i st.values) :
    ∃ w : AxleVal, w.outputBy = .t i ∧
      (applyTool tools g st (mkCoupling i 16 16 true (some i) (some (i + 1)))).values =
        setAxle st.values (i + 1) w ∧
      (applyTool tools g st (mkCoupling i 16 16 true (some i) (some (i + 1)))).changed = true := by
  obtain ⟨v, hvi, hvout⟩ := hinv.1 i hi le_rfl
  have hnone : st.values (i + 1) = none := hinv.2 (i + 1) (Nat.lt_succ_self i)
  have hextA : extInput st.values (.t i) (some i) = some v := by
    refine extInput_eq_some _ _ _ _ hvi ?_
    rw [hvout]
    unfold chainProducer
    split
    · intro hc
      cases hc
    · intro hc
      injection hc with hc
      omega
  have hextB : extInput st.values (.t i) (some (i + 1)) = none :=
    extInput_eq_none _ _ _ hnone
  have hres : evaluateTool (mkCoupling i 16 16 true (some i) (some (i + 1))) g st.values =
      { output := some ⟨i + 1, (if true then -1 else 1) * v.speed * (16 / 16),
                        v.torque * (16 / 16)⟩ } :=
    evaluateCoupling_inA i 16 16 true i (i + 1) st.values v
      (by norm_num) (by norm_num) hextA hextB
  have happ : applyTool tools g st (mkCoupling i 16 16 true (some i) (some (i + 1))) =
      { values := setAxle st.values (i + 1)
          ⟨(if true then -1 else 1) * v.speed * (16 / 16), v.torque * (16 / 16), .t i⟩,
        statuses := setStatus st.statuses (.t i) ⟨none, false⟩,
        changed := true } := by
    rw [applyTool_eval tools g st _ (by simp [mkCoupling]) _ hres]
    unfold applyOutputs
    rw [if_pos rfl]
    rw [applyMulti]
    unfold applySingle
    dsimp only
    rw [hnone]
    rfl
  exact ⟨⟨(if true then -1 else 1) * v.speed * (16 / 16), v.torque * (16 / 16), .t i⟩,
    rfl, by rw [happ], by rw [happ]⟩
theorem chain_fold (tools : List Tool) (g : ℕ) (cnt : ℕ) :
    ∀ (i : ℕ) (st : ModeState), 1 ≤ i → ChainInv i st.values →
      ChainInv (i + cnt) (((chainFrom i cnt).foldl (applyTool tools g) st).values)
      ∧ (1 ≤ cnt → ((chainFrom i cnt).foldl (applyTool tools g) st).changed = true)
      ∧ (cnt = 0 → ((chainFrom i cnt).foldl (applyTool tools g) st).changed = st.changed) := by
  induction cnt with
  | zero =>
    intro i st hi hinv
    exact ⟨hinv, fun h => absurd h (by omega), fun _ => rfl⟩
  | succ c ih =>
    intro i st hi hinv
    rw [chainFrom, List.foldl_cons]
    obtain ⟨w, hw, hval, hch⟩ := chain_step tools g i st hi hinv
    have hinv2 : ChainInv (i + 1)
        ((applyTool tools g st (mkCoupling i 16 16 true (some i) (some (i + 1)))).values) := by
      rw [hval]
      constructor
      · intro a ha1 ha2
        by_cases hae : a = i + 1
        · subst hae
          refine ⟨w, by simp [setAxle], ?_⟩
          rw [hw]
          unfold chainProducer
          rw [if_neg (by omega), Nat.add_sub_cancel]
        · obtain ⟨v2, hv2, ho2⟩ := hinv.1 a ha1 (by omega)
          refine ⟨v2, ?_, ho2⟩
          unfold setAxle
          rw [if_neg hae]
          exact hv2
      · intro a ha
        unfold setAxle
        rw [if_neg (by omega)]
        exact hinv.2 a (by omega)
    have hrest := ih (i + 1) _ (by omega) hinv2
    refine ⟨?_, fun _ => ?_, fun h => by omega⟩
    · have h := hrest.1
      rw [show i + 1 + c = i + (c + 1) from by omega] at h
      exact h
    · rcases Nat.eq_zero_or_pos c with hc | hc
      · subst hc
        rw [hrest.2.2 rfl]
        exact hch
      · exact hrest.2.1 hc

theorem initState_inv : ChainInv 1 ((initState mkSource).values) := by
  have hval : (initState mkSource).values =
      fun x => if x = 1 then some ⟨1, 1, TId.source⟩ else none := rfl
  rw [hval]
  constructor
  · intro a h1 h2
    have ha : a = 1 := by omega
    subst ha
    exact ⟨⟨1, 1, .source⟩, rfl, rfl⟩
  · intro a ha
    dsimp only
    rw [if_neg (by omega)]

theorem chain_sweep1 (g : ℕ) (N : ℕ) (hN : 1 ≤ N) :
    ChainInv (N + 1) ((sweep (mkSource :: chainTools N) g (initState mkSource)).values)
    ∧ (sweep (mkSource :: chainTools N) g (initState mkSource)).changed = true := by
  unfold sweep
  rw [List.foldl_cons, applyTool_source _ _ _ _ rfl]
  have h := chain_fold (mkSource :: chainTools N) g N 1
    { initState mkSource with changed := false } le_rfl initState_inv
  refine ⟨?_, h.2.1 hN⟩
  have h1 := h.1
  rw [show 1 + N = N + 1 from by omega] at h1
  exact h1
theorem chain_step2 (tools : List Tool) (g : ℕ) (i M : ℕ) (st : ModeState)
    (hi : 1 ≤ i) (hiM : i + 1 ≤ M) (hinv : ChainInv M st.values) :
    (applyTool tools g st (mkCoupling i 16 16 true (some i) (some (i + 1)))).values = st.values
    ∧ (applyTool tools g st (mkCoupling i 16 16 true (some i) (some (i + 1)))).changed =
        st.changed := by
  obtain ⟨v, hvi, hvo⟩ := hinv.1 i hi (by omega)
  obtain ⟨v2, hvi2, hvo2⟩ := hinv.1 (i + 1) (by omega) hiM
  have hout2 : v2.outputBy = .t i := by
    rw [hvo2]
    unfold chainProducer
    rw [if_neg (by omega), Nat.add_sub_cancel]
  have hextA : extInput st.values (.t i) (some i) = some v := by
    refine extInput_eq_some _ _ _ _ hvi ?_
    rw [hvo]
    unfold chainProducer
    split
    · intro hc
      cases hc
    · intro hc
      injection hc with hc
      omega
  have hextB : extInput st.values (.t i) (some (i + 1)) = none := by
    simp only [extInput]
    rw [hvi2]
    dsimp only
    rw [if_pos hout2]
  have hres : evaluateTool (mkCoupling i 16 16 true (some i) (some (i + 1))) g st.values =
      { output := some ⟨i + 1, (if true then -1 else 1) * v.speed * (16 / 16),
                        v.torque * (16 / 16)⟩ } :=
    evaluateCoupling_inA i 16 16 true i (i + 1) st.values v
      (by norm_num) (by norm_num) hextA hextB
  have happ : applyTool tools g st (mkCoupling i 16 16 true (some i) (some (i + 1))) =
      { st with statuses := setStatus st.statuses (.t i) ⟨none, false⟩ } := by
    rw [applyTool_eval tools g st _ (by simp [mkCoupling]) _ hres]
    unfold applyOutputs
    rw [if_pos rfl]
    rw [applyMulti]
    unfold applySingle
    dsimp only
    rw [hvi2]
    dsimp only [mkCoupling]
    rw [if_neg (not_not_intro hout2)]
  exact ⟨by rw [happ], by rw [happ]⟩

theorem chain_fold2 (tools : List Tool) (g : ℕ) (cnt : ℕ) :
    ∀ (i M : ℕ) (st : ModeState), 1 ≤ i → i + cnt ≤ M → ChainInv M st.values →
      ((chainFrom i cnt).foldl (applyTool tools g) st).values = st.values
      ∧ ((chainFrom i cnt).foldl (applyTool tools g) st).changed = st.changed := by
  induction cnt with
  | zero => exact fun i M st _ _ _ => ⟨rfl, rfl⟩
  | succ c ih =>
    intro i M st hi hiM hinv
    rw [chainFrom, List.foldl_cons]
    obtain ⟨hv, hc⟩ := chain_step2 tools g i M st hi (by omega) hinv
    have hinv2 : ChainInv M
        ((applyTool tools g st (mkCoupling i 16 16 true (some i) (some (i + 1)))).values) := by
      rw [hv]
      exact hinv
    obtain ⟨hv2, hc2⟩ := ih (i + 1) M _ (by omega) (by omega) hinv2
    exact ⟨by rw [hv2, hv], by rw [hc2, hc]⟩

theorem chain_sweep2 (g : ℕ) (N : ℕ) (st : ModeState)
    (hinv : ChainInv (N + 1) st.values) :
    (sweep (mkSource :: chainTools N) g st).values = st.values
    ∧ (sweep (mkSource :: chainTools N) g st).changed = false := by
  unfold sweep
  rw [List.foldl_cons, applyTool_source _ _ _ _ rfl]
  have h := chain_fold2 (mkSource :: chainTools N) g N 1 (N + 1)
    { st with changed := false } le_rfl (by omega) hinv
  exact ⟨h.1, h.2⟩

theorem sweepIter_values (tools : List Tool) (g : ℕ) (k : ℕ) (st : ModeState)
    (a : ℕ) (v : AxleVal) (h : st.values a = some v) :
    (sweepIter tools g k st).values a = some v := by
  induction k generalizing st with
  | zero => exact h
  | succ n ih =>
    rw [sweepIter]
    exact ih _ (sweep_values _ _ _ _ _ h)

theorem runLoop_count_le (tools : List Tool) (g : ℕ) (fuel : ℕ) (st : ModeState) :
    (runLoop tools g fuel st).2 ≤ fuel := by
  induction fuel generalizing st with
  | zero => exact le_refl 0
  | succ f ih =>
    rw [runLoop]
    split
    · exact Nat.succ_le_succ (ih _)
    · exact Nat.succ_le_succ (Nat.zero_le f)

theorem runLoop_stops (tools : List Tool) (g : ℕ) (fuel : ℕ) (st : ModeState)
    (h : ¬(sweep tools g st).changed = true) :
    runLoop tools g (fuel + 1) st = (sweep tools g st, 1) := by
  rw [runLoop, if_neg h]

theorem runLoop_two (tools : List Tool) (g : ℕ) (fuel : ℕ) (st : ModeState)
    (h1 : (sweep tools g st).changed = true)
    (h2 : ¬(sweep tools g (sweep tools g st)).changed = true) :
    runLoop tools g (fuel + 2) st = (sweep tools g (sweep tools g st), 2) := by
  rw [show fuel + 2 = (fuel + 1) + 1 from rfl, runLoop, if_pos h1,
    runLoop_stops _ _ _ _ h2]
/-- C4: the per-mode propagation loop executes at most 100 sweeps and
stops as soon as a full sweep produces no new axle value; for a chain
of N couplings in series seeded on axle 1, all N+1 axles are produced
within N sweeps, and for N ≤ 50 the computation ends (via the
no-change exit, after 2 executed sweeps) without reaching the 100-sweep
cap. -/
theorem propagation_termination_C4 :
    (∀ (sourceTool : Tool) (tools : List Tool) (g : ℕ),
      (computeGearMode sourceTool tools g).2 ≤ 100)
    ∧ (∀ (tools : List Tool) (g : ℕ) (fuel : ℕ) (st : ModeState),
      ¬(sweep tools g st).changed = true →
      runLoop tools g (fuel + 1) st = (sweep tools g st, 1))
    ∧ (∀ N : ℕ, 1 ≤ N → N ≤ 50 →
      (∀ a : ℕ, 1 ≤ a → a ≤ N + 1 →
        ((sweepIter (mkSource :: chainTools N) 1 N (initState mkSource)).values a).isSome
          = true)
      ∧ (computeGearMode mkSource (mkSource :: chainTools N) 1).2 < 100
      ∧ (∀ a : ℕ, 1 ≤ a → a ≤ N + 1 →
        (((computeGearMode mkSource (mkSource :: chainTools N) 1).1).values a).isSome
          = true)) := by
  refine ⟨fun srcT tools g => runLoop_count_le tools g 100 _,
    fun tools g fuel st h => runLoop_stops tools g fuel st h, ?_⟩
  intro N hN _
  have h1 := chain_sweep1 1 N hN
  have h2 := chain_sweep2 1 N _ h1.1
  have hrun : computeGearMode mkSource (mkSource :: chainTools N) 1 =
      (sweep (mkSource :: chainTools N) 1
        (sweep (mkSource :: chainTools N) 1 (initState mkSource)), 2) := by
    unfold computeGearMode
    rw [show (100 : ℕ) = 98 + 2 from rfl]
    exact runLoop_two _ _ _ _ h1.2 (by simp [h2.2])
  refine ⟨?_, ?_, ?_⟩
  · intro a ha1 ha2
    obtain ⟨N2, rfl⟩ : ∃ N2, N = N2 + 1 := ⟨N - 1, by omega⟩
    rw [sweepIter]
    obtain ⟨v, hv, _⟩ := h1.1.1 a ha1 ha2
    rw [sweepIter_values _ _ _ _ a v hv]
    rfl
  · rw [hrun]
    norm_num
  · intro a ha1 ha2
    rw [hrun]
    dsimp only
    rw [h2.1]
    obtain ⟨v, hv, _⟩ := h1.1.1 a ha1 ha2
    rw [hv]
    rfl

/-- Witness for C4 at the one-coupling chain. -/
theorem propagation_termination_C4_witness :
    (computeGearMode mkSource (mkSource :: chainTools 1) 1).2 < 100
    ∧ (((computeGearMode mkSource (mkSource :: chainTools 1) 1).1).values 2).isSome = true :=
  ⟨(propagation_termination_C4.2.2 1 (by norm_num) (by norm_num)).2.1,
   (propagation_termination_C4.2.2 1 (by norm_num) (by norm_num)).2.2 2
     (by norm_num) (by norm_num)⟩
theorem circleCount_cast_eps : ((1 / 10 ^ 12 : ℚ) : ℝ) = 1 / 10 ^ 12 := by
  push_cast
  norm_num

/-- C8: `circleIntersections` returns no point exactly in the three
epsilon-guarded cases (centers nearly coincident, circles too far
apart, one circle strictly inside the other), one point exactly when
the clamped half-chord h = √(r0² − a²) vanishes (with a the projection
(r0²−r1²+d²)/(2d); Real.sqrt is 0 on nonpositive input, which is the
source's clamp), including every d ≥ r0+r1 still within the epsilon
band, and two points otherwise. -/
theorem circle_count_C8 :
    ∀ (c0 : ℚ × ℚ) (r0 : ℚ) (c1 : ℚ × ℚ) (r1 : ℚ), 0 ≤ r0 → 0 ≤ r1 →
    (circleIntersectionsCount c0 r0 c1 r1 = 0 ↔
      Real.sqrt ((d2 c0 c1 : ℚ) : ℝ) < 1 / 10 ^ 12
      ∨ (r0 : ℝ) + r1 + 1 / 10 ^ 12 < Real.sqrt ((d2 c0 c1 : ℚ) : ℝ)
      ∨ Real.sqrt ((d2 c0 c1 : ℚ) : ℝ) < |(r0 : ℝ) - r1| - 1 / 10 ^ 12)
    ∧ (circleIntersectionsCount c0 r0 c1 r1 = 1 ↔
      ¬(Real.sqrt ((d2 c0 c1 : ℚ) : ℝ) < 1 / 10 ^ 12
        ∨ (r0 : ℝ) + r1 + 1 / 10 ^ 12 < Real.sqrt ((d2 c0 c1 : ℚ) : ℝ)
        ∨ Real.sqrt ((d2 c0 c1 : ℚ) : ℝ) < |(r0 : ℝ) - r1| - 1 / 10 ^ 12)
      ∧ Real.sqrt ((r0 : ℝ) ^ 2 -
          (((r0 : ℝ) ^ 2 - (r1 : ℝ) ^ 2 + Real.sqrt ((d2 c0 c1 : ℚ) : ℝ) ^ 2) /
            (2 * Real.sqrt ((d2 c0 c1 : ℚ) : ℝ))) ^ 2) = 0)
    ∧ (¬(Real.sqrt ((d2 c0 c1 : ℚ) : ℝ) < 1 / 10 ^ 12
        ∨ (r0 : ℝ) + r1 + 1 / 10 ^ 12 < Real.sqrt ((d2 c0 c1 : ℚ) : ℝ)
        ∨ Real.sqrt ((d2 c0 c1 : ℚ) : ℝ) < |(r0 : ℝ) - r1| - 1 / 10 ^ 12) →
      (r0 : ℝ) + r1 ≤ Real.sqrt ((d2 c0 c1 : ℚ) : ℝ) →
      circleIntersectionsCount c0 r0 c1 r1 = 1)
    ∧ (circleIntersectionsCount c0 r0 c1 r1 = 2 ↔
      ¬(Real.sqrt ((d2 c0 c1 : ℚ) : ℝ) < 1 / 10 ^ 12
        ∨ (r0 : ℝ) + r1 + 1 / 10 ^ 12 < Real.sqrt ((d2 c0 c1 : ℚ) : ℝ)
        ∨ Real.sqrt ((d2 c0 c1 : ℚ) : ℝ) < |(r0 : ℝ) - r1| - 1 / 10 ^ 12)
      ∧ Real.sqrt ((r0 : ℝ) ^ 2 -
          (((r0 : ℝ) ^ 2 - (r1 : ℝ) ^ 2 + Real.sqrt ((d2 c0 c1 : ℚ) : ℝ) ^ 2) /
            (2 * Real.sqrt ((d2 c0 c1 : ℚ) : ℝ))) ^ 2) ≠ 0) := by
  intro c0 r0 c1 r1 hr0 hr1
  have hq0 : (0 : ℚ) ≤ d2 c0 c1 := by unfold d2; positivity
  have hq0r : (0 : ℝ) ≤ ((d2 c0 c1 : ℚ) : ℝ) := by exact_mod_cast hq0
  set q : ℚ := d2 c0 c1 with hqdef
  set d : ℝ := Real.sqrt (q : ℝ) with hddef
  have hd0 : 0 ≤ d := Real.sqrt_nonneg _
  have hdsq : d ^ 2 = (q : ℝ) := Real.sq_sqrt hq0r
  have hiff1 : sqrtLtB q (1 / 10 ^ 12) = true ↔ d < 1 / 10 ^ 12 := by
    rw [hddef, sqrtLtB_iff, circleCount_cast_eps]
  have hiff2 : sqrtGtB q (r0 + r1 + 1 / 10 ^ 12) = true ↔ (r0 : ℝ) + r1 + 1 / 10 ^ 12 < d := by
    rw [hddef, sqrtGtB_iff]
    constructor <;> intro h <;> · push_cast at h ⊢; linarith
  have hiff3 : sqrtLtB q (|r0 - r1| - 1 / 10 ^ 12) = true ↔
      d < |(r0 : ℝ) - r1| - 1 / 10 ^ 12 := by
    rw [hddef, sqrtLtB_iff]
    constructor <;> intro h <;> · push_cast at h ⊢; linarith
  rw [circleIntersectionsCount]
  by_cases hA : sqrtLtB q (1 / 10 ^ 12) = true
  · rw [if_pos hA]
    have hd1 : d < 1 / 10 ^ 12 := hiff1.1 hA
    exact ⟨iff_of_true rfl (Or.inl hd1),
      iff_of_false (by decide) (fun hcon => hcon.1 (Or.inl hd1)),
      fun hn _ => absurd (Or.inl hd1) hn,
      iff_of_false (by decide) (fun hcon => hcon.1 (Or.inl hd1))⟩
  · rw [if_neg hA]
    have hd1 : ¬d < 1 / 10 ^ 12 := fun h => hA (hiff1.2 h)
    have hdpos : 0 < d := by
      by_contra h
      exact hd1 (by push_neg at h; linarith [lt_of_le_of_lt h (by norm_num : (0:ℝ) < 1 / 10 ^ 12)])
    by_cases hB : sqrtGtB q (r0 + r1 + 1 / 10 ^ 12) = true
    · rw [if_pos hB]
      have hd2 : (r0 : ℝ) + r1 + 1 / 10 ^ 12 < d := hiff2.1 hB
      exact ⟨iff_of_true rfl (Or.inr (Or.inl hd2)),
        iff_of_false (by decide) (fun hcon => hcon.1 (Or.inr (Or.inl hd2))),
        fun hn _ => absurd (Or.inr (Or.inl hd2)) hn,
        iff_of_false (by decide) (fun hcon => hcon.1 (Or.inr (Or.inl hd2)))⟩
    · rw [if_neg hB]
      have hd2 : ¬((r0 : ℝ) + r1 + 1 / 10 ^ 12 < d) := fun h => hB (hiff2.2 h)
      by_cases hC : sqrtLtB q (|r0 - r1| - 1 / 10 ^ 12) = true
      · rw [if_pos hC]
        have hd3 : d < |(r0 : ℝ) - r1| - 1 / 10 ^ 12 := hiff3.1 hC
        exact ⟨iff_of_true rfl (Or.inr (Or.inr hd3)),
          iff_of_false (by decide) (fun hcon => hcon.1 (Or.inr (Or.inr hd3))),
          fun hn _ => absurd (Or.inr (Or.inr hd3)) hn,
          iff_of_false (by decide) (fun hcon => hcon.1 (Or.inr (Or.inr hd3)))⟩
      · rw [if_neg hC]
        have hd3 : ¬(d < |(r0 : ℝ) - r1| - 1 / 10 ^ 12) := fun h => hC (hiff3.2 h)
        have hnd : ¬(d < 1 / 10 ^ 12 ∨ (r0 : ℝ) + r1 + 1 / 10 ^ 12 < d
            ∨ d < |(r0 : ℝ) - r1| - 1 / 10 ^ 12) := by
          push_neg
          exact ⟨le_of_not_lt hd1, le_of_not_lt hd2, le_of_not_lt hd3⟩
        have hhiff : Real.sqrt ((r0 : ℝ) ^ 2 -
            (((r0 : ℝ) ^ 2 - (r1 : ℝ) ^ 2 + d ^ 2) / (2 * d)) ^ 2) = 0 ↔
            4 * q * r0 ^ 2 ≤ (r0 ^ 2 - r1 ^ 2 + q) ^ 2 := by
          rw [Real.sqrt_eq_zero']
          rw [sub_nonpos, div_pow, mul_pow, le_div_iff₀ (by positivity), hdsq]
          constructor <;> intro h
          · have h2 : (4 : ℝ) * (q : ℝ) * (r0 : ℝ) ^ 2 ≤
                ((r0 : ℝ) ^ 2 - (r1 : ℝ) ^ 2 + (q : ℝ)) ^ 2 := by linear_combination h
            exact_mod_cast h2
          · have h2 : (4 : ℝ) * (q : ℝ) * (r0 : ℝ) ^ 2 ≤
                ((r0 : ℝ) ^ 2 - (r1 : ℝ) ^ 2 + (q : ℝ)) ^ 2 := by exact_mod_cast h
            linear_combination h2
        by_cases hD : 4 * q * r0 ^ 2 ≤ (r0 ^ 2 - r1 ^ 2 + q) ^ 2
        · rw [if_pos hD]
          exact ⟨iff_of_false (by decide) hnd,
            iff_of_true rfl ⟨hnd, hhiff.2 hD⟩,
            fun _ _ => rfl,
            iff_of_false (by decide) (fun hcon => hcon.2 (hhiff.2 hD))⟩
        · rw [if_neg hD]
          have hh : ¬(Real.sqrt ((r0 : ℝ) ^ 2 -
              (((r0 : ℝ) ^ 2 - (r1 : ℝ) ^ 2 + d ^ 2) / (2 * d)) ^ 2) = 0) :=
            fun h => hD (hhiff.1 h)
          refine ⟨iff_of_false (by decide) hnd,
            iff_of_false (by decide) (fun hcon => hh hcon.2),
            ?_,
            iff_of_true rfl ⟨hnd, hh⟩⟩
          intro _ hge
          exfalso
          apply hD
          have hr02 : (0 : ℝ) ≤ (r0 : ℝ) := by exact_mod_cast hr0
          have hr12 : (0 : ℝ) ≤ (r1 : ℝ) := by exact_mod_cast hr1
          have hfact1 : (0 : ℝ) ≤ d - (r0 : ℝ) - (r1 : ℝ) := by linarith
          have hfact2 : (0 : ℝ) ≤ d - (r0 : ℝ) + (r1 : ℝ) := by linarith
          have hfact3 : (0 : ℝ) ≤ d + (r0 : ℝ) - (r1 : ℝ) := by linarith
          have hfact4 : (0 : ℝ) ≤ d + (r0 : ℝ) + (r1 : ℝ) := by linarith
          have key : (4 : ℝ) * (q : ℝ) * (r0 : ℝ) ^ 2 ≤
              ((r0 : ℝ) ^ 2 - (r1 : ℝ) ^ 2 + (q : ℝ)) ^ 2 := by
            rw [← hdsq]
            nlinarith [mul_nonneg (mul_nonneg hfact1 hfact2) (mul_nonneg hfact3 hfact4)]
          exact_mod_cast key

/-- Witness for C8 at externally tangent unit circles centred at (0,0)
and (2,0). -/
theorem circle_count_C8_witness :
    circleIntersectionsCount (0, 0) 1 (2, 0) 1 = 1 := by
  have hs : Real.sqrt ((d2 ((0 : ℚ), (0 : ℚ)) ((2 : ℚ), (0 : ℚ)) : ℚ) : ℝ) = 2 := by
    rw [show ((d2 ((0 : ℚ), (0 : ℚ)) ((2 : ℚ), (0 : ℚ)) : ℚ) : ℝ) = 4 by norm_num [d2],
      show (4 : ℝ) = 2 ^ 2 by norm_num, Real.sqrt_sq (by norm_num)]
  refine (circle_count_C8 (0, 0) 1 (2, 0) 1 (by norm_num) (by norm_num)).2.2.1 ?_ ?_
  · rw [hs]
    push_cast
    norm_num
  · rw [hs]
    push_cast
    norm_num
theorem classifyOffset_spec (dist maxOverfit maxUnderfit x y : ℚ) :
    (classifyOffset dist maxOverfit maxUnderfit x y = .skipped ↔
      ((dist : ℝ) + maxOverfit < Real.sqrt ((x ^ 2 + y ^ 2 : ℚ) : ℝ)
       ∨ Real.sqrt ((x ^ 2 + y ^ 2 : ℚ) : ℝ) < (dist : ℝ) - maxUnderfit
       ∨ (x = 0 ∧ y = 0)))
    ∧ (classifyOffset dist maxOverfit maxUnderfit x y = .exact ↔
      ¬((dist : ℝ) + maxOverfit < Real.sqrt ((x ^ 2 + y ^ 2 : ℚ) : ℝ)
        ∨ Real.sqrt ((x ^ 2 + y ^ 2 : ℚ) : ℝ) < (dist : ℝ) - maxUnderfit
        ∨ (x = 0 ∧ y = 0))
      ∧ |Real.sqrt ((x ^ 2 + y ^ 2 : ℚ) : ℝ) - (dist : ℝ)| < 1 / 10 ^ 4)
    ∧ (classifyOffset dist maxOverfit maxUnderfit x y = .overfit ↔
      ¬((dist : ℝ) + maxOverfit < Real.sqrt ((x ^ 2 + y ^ 2 : ℚ) : ℝ)
        ∨ Real.sqrt ((x ^ 2 + y ^ 2 : ℚ) : ℝ) < (dist : ℝ) - maxUnderfit
        ∨ (x = 0 ∧ y = 0))
      ∧ ¬(|Real.sqrt ((x ^ 2 + y ^ 2 : ℚ) : ℝ) - (dist : ℝ)| < 1 / 10 ^ 4)
      ∧ (dist : ℝ) < Real.sqrt ((x ^ 2 + y ^ 2 : ℚ) : ℝ))
    ∧ (classifyOffset dist maxOverfit maxUnderfit x y = .underfit ↔
      ¬((dist : ℝ) + maxOverfit < Real.sqrt ((x ^ 2 + y ^ 2 : ℚ) : ℝ)
        ∨ Real.sqrt ((x ^ 2 + y ^ 2 : ℚ) : ℝ) < (dist : ℝ) - maxUnderfit
        ∨ (x = 0 ∧ y = 0))
      ∧ ¬(|Real.sqrt ((x ^ 2 + y ^ 2 : ℚ) : ℝ) - (dist : ℝ)| < 1 / 10 ^ 4)
      ∧ ¬((dist : ℝ) < Real.sqrt ((x ^ 2 + y ^ 2 : ℚ) : ℝ))) := by
  have hq0 : (0 : ℚ) ≤ x ^ 2 + y ^ 2 := by positivity
  set q : ℚ := x ^ 2 + y ^ 2 with hqdef
  set D : ℝ := Real.sqrt (q : ℝ) with hDdef
  have hD0 : 0 ≤ D := Real.sqrt_nonneg _
  have hiffO : sqrtGtB q (dist + maxOverfit) = true ↔ (dist : ℝ) + maxOverfit < D := by
    rw [hDdef, sqrtGtB_iff]
    constructor <;> intro h <;> · push_cast at h ⊢; linarith
  have hiffU : sqrtLtB q (dist - maxUnderfit) = true ↔ D < (dist : ℝ) - maxUnderfit := by
    rw [hDdef, sqrtLtB_iff]
    constructor <;> intro h <;> · push_cast at h ⊢; linarith
  have hiffZ : q = 0 ↔ (x = 0 ∧ y = 0) := by
    rw [hqdef, add_eq_zero_iff_of_nonneg (sq_nonneg x) (sq_nonneg y), sq_eq_zero_iff,
      sq_eq_zero_iff]
  have hiffE : (sqrtLtB q (dist + 1 / 10 ^ 4) && sqrtGtB q (dist - 1 / 10 ^ 4)) = true ↔
      |D - (dist : ℝ)| < 1 / 10 ^ 4 := by
    rw [Bool.and_eq_true, hDdef, sqrtLtB_iff, sqrtGtB_iff, abs_sub_lt_iff]
    constructor <;> intro h <;> refine ⟨?_, ?_⟩ <;>
      [skip; skip; skip; skip] <;>
      first
      | (have h1 := h.1; push_cast at h1 ⊢; linarith)
      | (have h2 := h.2; push_cast at h2 ⊢; linarith)
  have hiffG : sqrtGtB q dist = true ↔ (dist : ℝ) < D := by
    rw [hDdef, sqrtGtB_iff]
  rw [classifyOffset]
  by_cases hO : sqrtGtB q (dist + maxOverfit) = true
  · rw [if_pos hO]
    have h1 := hiffO.1 hO
    exact ⟨iff_of_true rfl (Or.inl h1),
      iff_of_false (by decide) (fun hc => hc.1 (Or.inl h1)),
      iff_of_false (by decide) (fun hc => hc.1 (Or.inl h1)),
      iff_of_false (by decide) (fun hc => hc.1 (Or.inl h1))⟩
  · rw [if_neg hO]
    have h1 : ¬((dist : ℝ) + maxOverfit < D) := fun h => hO (hiffO.2 h)
    by_cases hU : sqrtLtB q (dist - maxUnderfit) = true
    · rw [if_pos hU]
      have h2 := hiffU.1 hU
      exact ⟨iff_of_true rfl (Or.inr (Or.inl h2)),
        iff_of_false (by decide) (fun hc => hc.1 (Or.inr (Or.inl h2))),
        iff_of_false (by decide) (fun hc => hc.1 (Or.inr (Or.inl h2))),
        iff_of_false (by decide) (fun hc => hc.1 (Or.inr (Or.inl h2)))⟩
    · rw [if_neg hU]
      have h2 : ¬(D < (dist : ℝ) - maxUnderfit) := fun h => hU (hiffU.2 h)
      by_cases hZ : q = 0
      · rw [if_pos hZ]
        have h3 := hiffZ.1 hZ
        exact ⟨iff_of_true rfl (Or.inr (Or.inr h3)),
          iff_of_false (by decide) (fun hc => hc.1 (Or.inr (Or.inr h3))),
          iff_of_false (by decide) (fun hc => hc.1 (Or.inr (Or.inr h3))),
          iff_of_false (by decide) (fun hc => hc.1 (Or.inr (Or.inr h3)))⟩
      · rw [if_neg hZ]
        have h3 : ¬(x = 0 ∧ y = 0) := fun h => hZ (hiffZ.2 h)
        have hnd : ¬((dist : ℝ) + maxOverfit < D ∨ D < (dist : ℝ) - maxUnderfit
            ∨ (x = 0 ∧ y = 0)) := by
          push_neg
          exact ⟨le_of_not_lt h1, le_of_not_lt h2, fun hx hy => h3 ⟨hx, hy⟩⟩
        by_cases hE : (sqrtLtB q (dist + 1 / 10 ^ 4) && sqrtGtB q (dist - 1 / 10 ^ 4)) = true
        · rw [if_pos hE]
          have h4 := hiffE.1 hE
          exact ⟨iff_of_false (by decide) hnd,
            iff_of_true rfl ⟨hnd, h4⟩,
            iff_of_false (by decide) (fun hc => hc.2.1 h4),
            iff_of_false (by decide) (fun hc => hc.2.1 h4)⟩
        · rw [if_neg hE]
          have h4 : ¬(|D - (dist : ℝ)| < 1 / 10 ^ 4) := fun h => hE (hiffE.2 h)
          by_cases hG : sqrtGtB q dist = true
          · rw [if_pos hG]
            have h5 := hiffG.1 hG
            exact ⟨iff_of_false (by decide) hnd,
              iff_of_false (by decide) (fun hc => h4 hc.2),
              iff_of_true rfl ⟨hnd, h4, h5⟩,
              iff_of_false (by decide) (fun hc => hc.2.2 h5)⟩
          · rw [if_neg hG]
            have h5 : ¬((dist : ℝ) < D) := fun h => hG (hiffG.2 h)
            exact ⟨iff_of_false (by decide) hnd,
              iff_of_false (by decide) (fun hc => h4 hc.2),
              iff_of_false (by decide) (fun hc => h5 hc.2.2),
              iff_of_true rfl ⟨hnd, h4, h5⟩⟩
/-- C9: the mounting-offset enumerator classifies each half-stud grid
candidate (x, y) by its Euclidean distance √(x²+y²) against the ideal
distance: skipped out of [dist−maxUnderfit, dist+maxOverfit] or at
(0,0), exact within 1e-4, overfit above, underfit below; for
gearA = gearB = 16, dist = 2 and ratio = 1, offset (2,0) is exact and
offset (2.5,0) (with maxOverfit ≥ 0.5) is overfit with delta 0.5,
whose color class is "text-red" (the "poor" tier, delta > 0.10). -/
theorem mounting_classify_C9 :
    (∀ dist maxOverfit maxUnderfit x y : ℚ,
      (classifyOffset dist maxOverfit maxUnderfit x y = .exact ↔
        ¬((dist : ℝ) + maxOverfit < Real.sqrt ((x ^ 2 + y ^ 2 : ℚ) : ℝ)
          ∨ Real.sqrt ((x ^ 2 + y ^ 2 : ℚ) : ℝ) < (dist : ℝ) - maxUnderfit
          ∨ (x = 0 ∧ y = 0))
        ∧ |Real.sqrt ((x ^ 2 + y ^ 2 : ℚ) : ℝ) - (dist : ℝ)| < 1 / 10 ^ 4)
      ∧ (classifyOffset dist maxOverfit maxUnderfit x y = .overfit ↔
        ¬((dist : ℝ) + maxOverfit < Real.sqrt ((x ^ 2 + y ^ 2 : ℚ) : ℝ)
          ∨ Real.sqrt ((x ^ 2 + y ^ 2 : ℚ) : ℝ) < (dist : ℝ) - maxUnderfit
          ∨ (x = 0 ∧ y = 0))
        ∧ ¬(|Real.sqrt ((x ^ 2 + y ^ 2 : ℚ) : ℝ) - (dist : ℝ)| < 1 / 10 ^ 4)
        ∧ (dist : ℝ) < Real.sqrt ((x ^ 2 + y ^ 2 : ℚ) : ℝ))
      ∧ (classifyOffset dist maxOverfit maxUnderfit x y = .underfit ↔
        ¬((dist : ℝ) + maxOverfit < Real.sqrt ((x ^ 2 + y ^ 2 : ℚ) : ℝ)
          ∨ Real.sqrt ((x ^ 2 + y ^ 2 : ℚ) : ℝ) < (dist : ℝ) - maxUnderfit
          ∨ (x = 0 ∧ y = 0))
        ∧ ¬(|Real.sqrt ((x ^ 2 + y ^ 2 : ℚ) : ℝ) - (dist : ℝ)| < 1 / 10 ^ 4)
        ∧ ¬((dist : ℝ) < Real.sqrt ((x ^ 2 + y ^ 2 : ℚ) : ℝ)))
      ∧ (classifyOffset dist maxOverfit maxUnderfit x y = .skipped ↔
        ((dist : ℝ) + maxOverfit < Real.sqrt ((x ^ 2 + y ^ 2 : ℚ) : ℝ)
         ∨ Real.sqrt ((x ^ 2 + y ^ 2 : ℚ) : ℝ) < (dist : ℝ) - maxUnderfit
         ∨ (x = 0 ∧ y = 0))))
    ∧ calculateCenterDistance (.std 16) 16 = 2
    ∧ calculateGearRatio (.std 16) 16 = 1
    ∧ (∀ mo mu : ℚ, 0 ≤ mo → 0 ≤ mu → classifyOffset 2 mo mu 2 0 = .exact)
    ∧ (∀ mo mu : ℚ, 1 / 2 ≤ mo → 0 ≤ mu → classifyOffset 2 mo mu (5 / 2) 0 = .overfit)
    ∧ Real.sqrt (((5 / 2 : ℚ) ^ 2 + (0 : ℚ) ^ 2 : ℚ) : ℝ) - 2 = 1 / 2
    ∧ ¬((5 / 2 : ℚ) - 2 ≤ 1 / 10)
    ∧ getOverfitColorClass (5 / 2) 2 = "text-red"
    ∧ (∀ (dist mo mu : ℚ) (p : ℚ × ℚ),
        p ∈ (findMountingPositions dist mo mu).overfitL ↔
          p ∈ gridPoints (Int.toNat ⌈dist + mo + 1⌉) ∧
            classifyOffset dist mo mu p.1 p.2 = .overfit) := by
  have hs2 : Real.sqrt (((2 : ℚ) ^ 2 + (0 : ℚ) ^ 2 : ℚ) : ℝ) = 2 := by
    rw [show (((2 : ℚ) ^ 2 + (0 : ℚ) ^ 2 : ℚ) : ℝ) = 2 ^ 2 by push_cast; norm_num,
      Real.sqrt_sq (by norm_num)]
  have hs52 : Real.sqrt (((5 / 2 : ℚ) ^ 2 + (0 : ℚ) ^ 2 : ℚ) : ℝ) = 5 / 2 := by
    rw [show (((5 / 2 : ℚ) ^ 2 + (0 : ℚ) ^ 2 : ℚ) : ℝ) = (5 / 2) ^ 2 by push_cast; norm_num,
      Real.sqrt_sq (by norm_num)]
  refine ⟨fun dist mo mu x y => ?_, by norm_num [calculateCenterDistance],
    by norm_num [calculateGearRatio], ?_, ?_, by rw [hs52]; norm_num, by norm_num,
    by norm_num [getOverfitColorClass], ?_⟩
  · obtain ⟨h1, h2, h3, h4⟩ := classifyOffset_spec dist mo mu x y
    exact ⟨h2, h3, h4, h1⟩
  · intro mo mu hmo hmu
    have hmo2 : (0 : ℝ) ≤ (mo : ℝ) := by exact_mod_cast hmo
    have hmu2 : (0 : ℝ) ≤ (mu : ℝ) := by exact_mod_cast hmu
    refine (classifyOffset_spec 2 mo mu 2 0).2.1.mpr ⟨?_, ?_⟩
    · rw [hs2]
      simp only [not_or]
      refine ⟨by push_cast; linarith, by push_cast; linarith, by norm_num⟩
    · rw [hs2]
      norm_num
  · intro mo mu hmo hmu
    have hmo2 : (1 / 2 : ℝ) ≤ (mo : ℝ) := by
      have h := (Rat.cast_le (K := ℝ)).mpr hmo
      push_cast at h
      exact h
    have hmu2 : (0 : ℝ) ≤ (mu : ℝ) := by exact_mod_cast hmu
    refine (classifyOffset_spec 2 mo mu (5 / 2) 0).2.2.1.mpr ⟨?_, ?_, ?_⟩
    · rw [hs52]
      simp only [not_or]
      refine ⟨by push_cast; linarith, by push_cast; linarith, by norm_num⟩
    · rw [hs52]
      rw [show (5 / 2 : ℝ) - ((2 : ℚ) : ℝ) = 1 / 2 by push_cast; norm_num]
      rw [show |(1 / 2 : ℝ)| = 1 / 2 from abs_of_pos (by norm_num)]
      norm_num
    · rw [hs52]
      push_cast
      norm_num
  · intro dist mo mu p
    simp [findMountingPositions, List.mem_filter]

/-- Witness for C9 at the concrete 16:16 instance. -/
theorem mounting_classify_C9_witness :
    classifyOffset 2 (1 / 2) (1 / 2) 2 0 = .exact
    ∧ classifyOffset 2 (1 / 2) (1 / 2) (5 / 2) 0 = .overfit :=
  ⟨mounting_classify_C9.2.2.2.1 (1 / 2) (1 / 2) (by norm_num) (by norm_num),
   mounting_classify_C9.2.2.2.2.1 (1 / 2) (1 / 2) (by norm_num) (by norm_num)⟩
theorem half_lt_small (a b : ℚ) (ha : ∃ z : ℤ, a = (z : ℚ) / 2)
    (hb : ∃ z : ℤ, b = (z : ℚ) / 2) (h : a < b + 1 / 1000) : a ≤ b := by
  obtain ⟨za, rfl⟩ := ha
  obtain ⟨zb, rfl⟩ := hb
  have h2 : (za : ℚ) < zb + 1 := by linarith
  have h3 : za < zb + 1 := by exact_mod_cast h2
  have h4 : (za : ℚ) ≤ zb := by exact_mod_cast Int.lt_add_one_iff.mp h3
  linarith

theorem dedupStep_key_other (acc : DedupAcc) (r0 : LRow) (k : ℚ × ℚ)
    (hk : ¬rowKey r0 = k) : (dedupStep acc r0).minLenSum k = acc.minLenSum k := by
  unfold dedupStep
  split
  · split
    · rfl
    · dsimp only
      rw [if_neg (fun h => hk h.symm)]
  · dsimp only
    rw [if_neg (fun h => hk h.symm)]

theorem dedupStep_none (acc : DedupAcc) (r0 : LRow)
    (h : acc.minLenSum (rowKey r0) = none) :
    (dedupStep acc r0).minLenSum (rowKey r0) = some (rowSum r0) := by
  unfold dedupStep
  rw [h]
  dsimp only
  rw [if_pos rfl]

theorem dedupStep_skip (acc : DedupAcc) (r0 : LRow) (mn0 : ℚ)
    (h : acc.minLenSum (rowKey r0) = some mn0) (hskip : mn0 + 1 / 1000 ≤ rowSum r0) :
    dedupStep acc r0 = acc := by
  unfold dedupStep
  rw [h]
  dsimp only
  rw [if_pos hskip]

theorem dedupStep_update (acc : DedupAcc) (r0 : LRow) (mn0 : ℚ)
    (h : acc.minLenSum (rowKey r0) = some mn0) (hns : ¬mn0 + 1 / 1000 ≤ rowSum r0) :
    (dedupStep acc r0).minLenSum (rowKey r0) = some (rowSum r0) := by
  unfold dedupStep
  rw [h]
  dsimp only
  rw [if_neg hns]
  dsimp only
  rw [if_pos rfl]
theorem dedupFold_map (rows : List LRow) : ∀ (acc : DedupAcc) (k : ℚ × ℚ),
    (∀ r ∈ rows, ∃ z : ℤ, rowSum r = (z : ℚ) / 2) →
    (∀ mn, acc.minLenSum k = some mn → ∃ z : ℤ, mn = (z : ℚ) / 2) →
    ((rows.foldl dedupStep acc).minLenSum k = none ↔
      acc.minLenSum k = none ∧ ∀ r ∈ rows, rowKey r ≠ k)
    ∧ (∀ mn, (rows.foldl dedupStep acc).minLenSum k = some mn →
        (acc.minLenSum k = some mn ∨ ∃ r ∈ rows, rowKey r = k ∧ rowSum r = mn)
        ∧ (∀ mn0, acc.minLenSum k = some mn0 → mn ≤ mn0)
        ∧ (∀ r ∈ rows, rowKey r = k → mn ≤ rowSum r)) := by
  induction rows with
  | nil =>
    intro acc k _ _
    simp only [List.foldl_nil]
    refine ⟨by simp, fun mn h => ⟨Or.inl h, fun mn0 h0 => ?_, by simp⟩⟩
    rw [h] at h0
    injection h0 with h0
    rw [h0]
  | cons r0 rest ih =>
    intro acc k hrows hacc
    rw [List.foldl_cons]
    by_cases hk : rowKey r0 = k
    · rcases hacck : acc.minLenSum k with _ | mn0
      · have hstep : (dedupStep acc r0).minLenSum k = some (rowSum r0) := by
          rw [← hk]
          exact dedupStep_none acc r0 (by rw [hk]; exact hacck)
        have hih := ih (dedupStep acc r0) k (fun r h => hrows r (List.mem_cons_of_mem _ h))
          (fun mn h => by
            rw [hstep] at h
            injection h with h
            rw [← h]
            exact hrows r0 (List.mem_cons_self _ _))
        refine ⟨?_, fun mn h => ?_⟩
        · rw [hih.1]
          constructor
          · rintro ⟨h1, _⟩
            rw [hstep] at h1
            cases h1
          · rintro ⟨_, h2⟩
            exact absurd hk (h2 r0 (List.mem_cons_self _ _))
        · obtain ⟨hwit, hbnd, hrest⟩ := hih.2 mn h
          refine ⟨?_, ?_, ?_⟩
          · rcases hwit with h2 | ⟨r2, hr2, hk2, hs2⟩
            · rw [hstep] at h2
              injection h2 with h2
              exact Or.inr ⟨r0, List.mem_cons_self _ _, hk, h2⟩
            · exact Or.inr ⟨r2, List.mem_cons_of_mem _ hr2, hk2, hs2⟩
          · intro mn1 h1
            cases h1
          · intro r2 hr2 hk2
            rcases List.mem_cons.1 hr2 with h2 | h2
            · subst h2
              exact hbnd (rowSum r2) hstep
            · exact hrest r2 h2 hk2
      · by_cases hskip : mn0 + 1 / 1000 ≤ rowSum r0
        · have hstep : dedupStep acc r0 = acc :=
            dedupStep_skip acc r0 mn0 (by rw [hk]; exact hacck) hskip
          rw [hstep]
          have hih := ih acc k (fun r h => hrows r (List.mem_cons_of_mem _ h)) hacc
          refine ⟨?_, fun mn h => ?_⟩
          · rw [hih.1]
            constructor
            · rintro ⟨h1, _⟩
              rw [hacck] at h1
              cases h1
            · rintro ⟨_, h2⟩
              exact absurd hk (h2 r0 (List.mem_cons_self _ _))
          · obtain ⟨hwit, hbnd, hrest⟩ := hih.2 mn h
            refine ⟨?_, ?_, ?_⟩
            · rcases hwit with h2 | ⟨r2, hr2, hk2, hs2⟩
              · rw [hacck] at h2
                exact Or.inl h2
              · exact Or.inr ⟨r2, List.mem_cons_of_mem _ hr2, hk2, hs2⟩
            · intro mn1 h1
              injection h1 with h1
              rw [← h1]
              exact hbnd mn0 hacck
            · intro r2 hr2 hk2
              rcases List.mem_cons.1 hr2 with h2 | h2
              · subst h2
                have := hbnd mn0 hacck
                linarith
              · exact hrest r2 h2 hk2
        · have hle : rowSum r0 ≤ mn0 :=
            half_lt_small _ _ (hrows r0 (List.mem_cons_self _ _)) (hacc mn0 hacck)
              (by linarith [lt_of_not_le hskip])
          have hstep : (dedupStep acc r0).minLenSum k = some (rowSum r0) := by
            rw [← hk]
            exact dedupStep_update acc r0 mn0 (by rw [hk]; exact hacck) hskip
          have hih := ih (dedupStep acc r0) k (fun r h => hrows r (List.mem_cons_of_mem _ h))
            (fun mn h => by
              rw [hstep] at h
              injection h with h
              rw [← h]
              exact hrows r0 (List.mem_cons_self _ _))
          refine ⟨?_, fun mn h => ?_⟩
          · rw [hih.1]
            constructor
            · rintro ⟨h1, _⟩
              rw [hstep] at h1
              cases h1
            · rintro ⟨_, h2⟩
              exact absurd hk (h2 r0 (List.mem_cons_self _ _))
          · obtain ⟨hwit, hbnd, hrest⟩ := hih.2 mn h
            have hmnr0 : mn ≤ rowSum r0 := hbnd (rowSum r0) hstep
            refine ⟨?_, ?_, ?_⟩
            · rcases hwit with h2 | ⟨r2, hr2, hk2, hs2⟩
              · rw [hstep] at h2
                injection h2 with h2
                exact Or.inr ⟨r0, List.mem_cons_self _ _, hk, h2⟩
              · exact Or.inr ⟨r2, List.mem_cons_of_mem _ hr2, hk2, hs2⟩
            · intro mn1 h1
              injection h1 with h1
              rw [← h1]
              linarith
            · intro r2 hr2 hk2
              rcases List.mem_cons.1 hr2 with h2 | h2
              · subst h2
                exact hmnr0
              · exact hrest r2 h2 hk2
    · have hstep := dedupStep_key_other acc r0 k hk
      have hih := ih (dedupStep acc r0) k (fun r h => hrows r (List.mem_cons_of_mem _ h))
        (fun mn h => hacc mn (by rw [← hstep]; exact h))
      refine ⟨?_, fun mn h => ?_⟩
      · rw [hih.1, hstep]
        constructor
        · rintro ⟨h1, h2⟩
          refine ⟨h1, fun r2 hr2 => ?_⟩
          rcases List.mem_cons.1 hr2 with h3 | h3
          · subst h3
            exact hk
          · exact h2 r2 h3
        · rintro ⟨h1, h2⟩
          exact ⟨h1, fun r2 hr2 => h2 r2 (List.mem_cons_of_mem _ hr2)⟩
      · obtain ⟨hwit, hbnd, hrest⟩ := hih.2 mn h
        refine ⟨?_, fun mn1 h1 => hbnd mn1 (hstep.trans h1), ?_⟩
        · rcases hwit with h2 | ⟨r2, hr2, hk2, hs2⟩
          · rw [hstep] at h2
            exact Or.inl h2
          · exact Or.inr ⟨r2, List.mem_cons_of_mem _ hr2, hk2, hs2⟩
        · intro r2 hr2 hk2
          rcases List.mem_cons.1 hr2 with h2 | h2
          · subst h2
            exact absurd hk2 hk
          · exact hrest r2 h2 hk2
theorem dedupStep_kept (acc : DedupAcc) (r0 : LRow) :
    (dedupStep acc r0).kept = acc.kept ∨ (dedupStep acc r0).kept = acc.kept ++ [r0] := by
  unfold dedupStep
  split
  · split
    · exact Or.inl rfl
    · exact Or.inr rfl
  · exact Or.inr rfl

theorem dedupFold_kept_sub (rows : List LRow) : ∀ (acc : DedupAcc) (r : LRow),
    r ∈ (rows.foldl dedupStep acc).kept → r ∈ acc.kept ∨ r ∈ rows := by
  induction rows with
  | nil => exact fun acc r h => Or.inl h
  | cons r0 rest ih =>
    intro acc r h
    rw [List.foldl_cons] at h
    rcases ih (dedupStep acc r0) r h with h2 | h2
    · rcases dedupStep_kept acc r0 with h3 | h3
      · rw [h3] at h2
        exact Or.inl h2
      · rw [h3] at h2
        rcases List.mem_append.1 h2 with h4 | h4
        · exact Or.inl h4
        · rcases List.mem_singleton.1 h4 with rfl
          exact Or.inr (List.mem_cons_self _ _)
    · exact Or.inr (List.mem_cons_of_mem _ h2)

theorem dedupFold_kept_mono (rows : List LRow) : ∀ (acc : DedupAcc) (r : LRow),
    r ∈ acc.kept → r ∈ (rows.foldl dedupStep acc).kept := by
  induction rows with
  | nil => exact fun acc r h => h
  | cons r0 rest ih =>
    intro acc r h
    rw [List.foldl_cons]
    refine ih _ r ?_
    rcases dedupStep_kept acc r0 with h3 | h3
    · rw [h3]
      exact h
    · rw [h3]
      exact List.mem_append.2 (Or.inl h)

theorem dedupFold_kept_min (rows : List LRow) : ∀ (acc : DedupAcc) (r : LRow),
    r ∈ rows →
    (∀ r2 ∈ rows, rowKey r2 = rowKey r → rowSum r ≤ rowSum r2) →
    (∀ mn, acc.minLenSum (rowKey r) = some mn → rowSum r ≤ mn) →
    r ∈ (rows.foldl dedupStep acc).kept := by
  induction rows with
  | nil =>
    intro acc r h
    cases h
  | cons r0 rest ih =>
    intro acc r hmem hmin hbnd
    rw [List.foldl_cons]
    rcases List.mem_cons.1 hmem with heq | hmem2
    · subst heq
      refine dedupFold_kept_mono rest _ r ?_
      rcases hacck : acc.minLenSum (rowKey r) with _ | mn0
      · unfold dedupStep
        rw [hacck]
        dsimp only
        exact List.mem_append.2 (Or.inr (List.mem_singleton.2 rfl))
      · unfold dedupStep
        rw [hacck]
        dsimp only
        rw [if_neg (by
          have := hbnd mn0 hacck
          intro hc
          linarith)]
        exact List.mem_append.2 (Or.inr (List.mem_singleton.2 rfl))
    · refine ih (dedupStep acc r0) r hmem2
        (fun r2 h2 hk2 => hmin r2 (List.mem_cons_of_mem _ h2) hk2) ?_
      intro mn h
      by_cases hk0 : rowKey r0 = rowKey r
      · rcases hacck : acc.minLenSum (rowKey r0) with _ | mn0
        · have hstep := dedupStep_none acc r0 hacck
          rw [hk0] at hstep
          rw [hstep] at h
          injection h with h
          rw [← h]
          exact hmin r0 (List.mem_cons_self _ _) hk0
        · by_cases hskip : mn0 + 1 / 1000 ≤ rowSum r0
          · have hstep := dedupStep_skip acc r0 mn0 hacck hskip
            rw [hstep] at h
            exact hbnd mn h
          · have hstep := dedupStep_update acc r0 mn0 hacck hskip
            rw [hk0] at hstep
            rw [hstep] at h
            injection h with h
            rw [← h]
            exact hmin r0 (List.mem_cons_self _ _) hk0
      · rw [dedupStep_key_other acc r0 (rowKey r) hk0] at h
        exact hbnd mn h
/-- C10: with the remove-larger option, a candidate row survives the
dedup (the in-loop minLenSum bookkeeping plus the post-loop filter)
exactly when its aLen+bLen is minimal among all rows sharing its
rounded 3-decimal S-coordinate key; all exact ties are kept. The
hypothesis records that every length sum lies on the half-stud grid,
as the enumeration guarantees. -/
theorem remove_larger_C10 :
    ∀ (rows : List LRow) (r : LRow),
      (∀ r2 ∈ rows, ∃ z : ℤ, rowSum r2 = (z : ℚ) / 2) →
      (r ∈ removeLargerFilter rows ↔
        r ∈ rows ∧ ∀ r2 ∈ rows, rowKey r2 = rowKey r → rowSum r ≤ rowSum r2) := by
  intro rows r hgrid
  unfold removeLargerFilter dedupPass
  rw [List.mem_filter]
  have hmap := dedupFold_map rows ⟨[], fun _ => none⟩ (rowKey r) hgrid
    (fun mn h => by cases h)
  constructor
  · rintro ⟨hkept, hfil⟩
    have hrows : r ∈ rows := by
      rcases dedupFold_kept_sub rows ⟨[], fun _ => none⟩ r hkept with h | h
      · cases h
      · exact h
    have hfil2 : (match (rows.foldl dedupStep ⟨[], fun _ => none⟩).minLenSum (rowKey r) with
        | some mn => decide (rowSum r < mn + 1 / 1000)
        | none => true) = true := hfil
    rcases hfin : (rows.foldl dedupStep ⟨[], fun _ => none⟩).minLenSum (rowKey r) with _ | mn
    · exact absurd rfl ((hmap.1.1 hfin).2 r hrows)
    · obtain ⟨hwit, _, hlow⟩ := hmap.2 mn hfin
      rw [hfin] at hfil2
      have hlt : rowSum r < mn + 1 / 1000 := of_decide_eq_true hfil2
      have hhalf : ∃ z : ℤ, mn = (z : ℚ) / 2 := by
        rcases hwit with h | ⟨r2, hr2, _, hs2⟩
        · cases h
        · rw [← hs2]
          exact hgrid r2 hr2
      have hle : rowSum r ≤ mn := half_lt_small _ _ (hgrid r hrows) hhalf hlt
      exact ⟨hrows, fun r2 h2 hk2 => le_trans hle (hlow r2 h2 hk2)⟩
  · rintro ⟨hrows, hmin⟩
    refine ⟨dedupFold_kept_min rows ⟨[], fun _ => none⟩ r hrows hmin
      (fun mn h => by cases h), ?_⟩
    show (match (rows.foldl dedupStep ⟨[], fun _ => none⟩).minLenSum (rowKey r) with
        | some mn => decide (rowSum r < mn + 1 / 1000)
        | none => true) = true
    rcases hfin : (rows.foldl dedupStep ⟨[], fun _ => none⟩).minLenSum (rowKey r) with _ | mn
    · rfl
    · obtain ⟨hwit, _, _⟩ := hmap.2 mn hfin
      rcases hwit with h | ⟨r2, hr2, hk2, hs2⟩
      · cases h
      · have h2 : rowSum r ≤ rowSum r2 := hmin r2 hr2 hk2
        exact decide_eq_true (by rw [← hs2]; linarith)

/-- Witness for C10 on a three-row stream: two rows share a key with
sums 4 and 3; the larger is dropped, the minimal survives. -/
theorem remove_larger_C10_witness :
    (⟨1, 0, 1, 2⟩ : LRow) ∈
      removeLargerFilter [⟨1, 0, 2, 2⟩, ⟨1, 0, 1, 2⟩, ⟨2, 0, 3, 1⟩] ↔
      (⟨1, 0, 1, 2⟩ : LRow) ∈ [(⟨1, 0, 2, 2⟩ : LRow), ⟨1, 0, 1, 2⟩, ⟨2, 0, 3, 1⟩]
      ∧ ∀ r2 ∈ [(⟨1, 0, 2, 2⟩ : LRow), ⟨1, 0, 1, 2⟩, ⟨2, 0, 3, 1⟩],
          rowKey r2 = rowKey ⟨1, 0, 1, 2⟩ →
          rowSum ⟨1, 0, 1, 2⟩ ≤ rowSum r2 :=
  remove_larger_C10 [⟨1, 0, 2, 2⟩, ⟨1, 0, 1, 2⟩, ⟨2, 0, 3, 1⟩] ⟨1, 0, 1, 2⟩
    (by
      intro r2 h2
      simp only [List.mem_cons, List.not_mem_nil, or_false] at h2
      rcases h2 with h | h | h
      · exact ⟨8, by rw [h]; norm_num [rowSum]⟩
      · exact ⟨6, by rw [h]; norm_num [rowSum]⟩
      · exact ⟨8, by rw [h]; norm_num [rowSum]⟩)
